import Mathlib

/-!
Shallow embedding of the Bitcoin script construction and parsing core of the
firmware (`src/core/src/apps/bitcoin/scripts.py` and
`src/core/src/apps/bitcoin/authorize_coinjoin.py`).

Bytes are modelled as `Nat` values and byte strings as `List Nat`.  Python
exceptions are modelled by the `Except Err` monad: `wire.DataError` and
`wire.ProcessError` carry their message strings, a Python `IndexError`
(raised by out-of-range `bytes` indexing) is `Err.indexError`, and a failed
`utils.ensure` assertion is `Err.ensureFailed`.  Python slicing `s[a:b]`
never raises and is modelled by `slice`; direct indexing `s[i]` is modelled
by `idx` and can raise `Err.indexError`.
-/

set_option maxHeartbeats 1000000

namespace TrezorScripts

/-- Error kinds raised by the embedded code: `wire.DataError`,
`wire.ProcessError`, Python `IndexError` from out-of-range byte indexing, and
a failed `utils.ensure` assertion. -/
inductive Err where
  | dataError (msg : String)
  | processError (msg : String)
  | indexError
  | ensureFailed
deriving DecidableEq, Repr

/-- Python `data[i]` on a `bytes` value: the byte, or `IndexError` when out of
range.  (Negative indices do not occur at the call sites modelled here.) -/
def idx {α : Type} (l : List α) (i : Nat) : Except Err α :=
  match l[i]? with
  | some v => Except.ok v
  | none => Except.error Err.indexError

/-- Python `data[a : b]` slicing on a `bytes` value (with `a b : Nat`):
total, silently truncating at the end of the buffer. -/
def slice {α : Type} (l : List α) (a b : Nat) : List α := (l.take b).drop a

/-- Is this result a raised `wire.DataError`? -/
def isDataErr {α : Type} : Except Err α → Bool
  | Except.error (Err.dataError _) => true
  | _ => false

/-- Executable equality for `Except`, so that concrete runs of the embedded
functions can be settled by `decide`. -/
instance {e a : Type} [DecidableEq e] [DecidableEq a] : DecidableEq (Except e a) :=
  fun x y =>
    match x, y with
    | Except.ok v, Except.ok w =>
      if h : v = w then isTrue (by rw [h]) else isFalse (by intro hc; cases hc; exact h rfl)
    | Except.error v, Except.error w =>
      if h : v = w then isTrue (by rw [h]) else isFalse (by intro hc; cases hc; exact h rfl)
    | Except.ok _, Except.error _ => isFalse (by intro hc; cases hc)
    | Except.error _, Except.ok _ => isFalse (by intro hc; cases hc)

/-! ## Byte reader primitives (`scripts.py`, lines 526-566) -/

/-- `read_bitcoin_varint(data, offset)` from `scripts.py` lines 526-543. -/
def read_bitcoin_varint (data : List Nat) (offset : Nat) : Except Err (Nat × Nat) := do
  let p ← idx data offset
  let offset := offset + 1
  if p < 253 then
    pure (p, offset)
  else if p = 253 then do
    let b0 ← idx data offset
    let b1 ← idx data (offset + 1)
    pure (b0 + b1 * 2 ^ 8, offset + 2)
  else if p = 254 then do
    let b0 ← idx data offset
    let b1 ← idx data (offset + 1)
    let b2 ← idx data (offset + 2)
    let b3 ← idx data (offset + 3)
    pure (b0 + b1 * 2 ^ 8 + b2 * 2 ^ 16 + b3 * 2 ^ 24, offset + 4)
  else
    Except.error (Err.dataError "Invalid VarInt")

/-- `read_op_push(data, offset)` from `scripts.py` lines 546-566. -/
def read_op_push (data : List Nat) (offset : Nat) : Except Err (Nat × Nat) := do
  let p ← idx data offset
  let offset := offset + 1
  if p < 0x4C then
    pure (p, offset)
  else if p = 0x4C then do
    let b0 ← idx data offset
    pure (b0, offset + 1)
  else if p = 0x4D then do
    let b0 ← idx data offset
    let b1 ← idx data (offset + 1)
    pure (b0 + b1 * 2 ^ 8, offset + 2)
  else if p = 0x4E then do
    let b0 ← idx data offset
    let b1 ← idx data (offset + 1)
    let b2 ← idx data (offset + 2)
    let b3 ← idx data (offset + 3)
    pure (b0 + b1 * 2 ^ 8 + b2 * 2 ^ 16 + b3 * 2 ^ 24, offset + 4)
  else
    Except.error (Err.dataError "Invalid OP_PUSH")

/-! ## Byte writer primitives

The writers live in `apps/common/writers.py` and `apps/bitcoin/writers.py`,
which are not among the provided sources; they are modelled from the spec
(section 4.A).  A Python `Writer` is modelled as the `List Nat` of bytes
written so far; each writer returns the extended list. -/

/-- Modelled from the spec: the bytes appended by `write_op_push(w, n)`
(`apps/bitcoin/writers.py`, absent from the sources).  Spec section 4.A:
`n < 0x4C` emits the single byte `n`; `n ≤ 0xFF` emits `0x4C, n`;
`n ≤ 0xFFFF` emits `0x4D` plus LE16; `n ≤ 0xFFFFFFFF` emits `0x4E` plus
LE32.  The spec leaves `n > 0xFFFFFFFF` unspecified. -/
def op_push_bytes (n : Nat) : List Nat :=
  if n < 0x4C then [n]
  else if n ≤ 0xFF then [0x4C, n]
  else if n ≤ 0xFFFF then [0x4D, n % 2 ^ 8, n / 2 ^ 8 % 2 ^ 8]
  else [0x4E, n % 2 ^ 8, n / 2 ^ 8 % 2 ^ 8, n / 2 ^ 16 % 2 ^ 8, n / 2 ^ 24 % 2 ^ 8]

/-- Modelled from the spec: `write_op_push(w, n)` appends `op_push_bytes n`. -/
def write_op_push (w : List Nat) (n : Nat) : List Nat := w ++ op_push_bytes n

/-- Modelled from the spec: the bytes appended by `write_bitcoin_varint(w, n)`
(`apps/common/writers.py`, absent from the sources).  Spec section 4.A:
`n < 253` emits one byte; `n ≤ 0xFFFF` emits `0xFD` plus LE16;
`n ≤ 0xFFFFFFFF` emits `0xFE` plus LE32; else `0xFF` plus LE64. -/
def varint_bytes (n : Nat) : List Nat :=
  if n < 253 then [n]
  else if n ≤ 0xFFFF then [0xFD, n % 2 ^ 8, n / 2 ^ 8 % 2 ^ 8]
  else if n ≤ 0xFFFFFFFF then
    [0xFE, n % 2 ^ 8, n / 2 ^ 8 % 2 ^ 8, n / 2 ^ 16 % 2 ^ 8, n / 2 ^ 24 % 2 ^ 8]
  else
    [0xFF, n % 2 ^ 8, n / 2 ^ 8 % 2 ^ 8, n / 2 ^ 16 % 2 ^ 8, n / 2 ^ 24 % 2 ^ 8,
      n / 2 ^ 32 % 2 ^ 8, n / 2 ^ 40 % 2 ^ 8, n / 2 ^ 48 % 2 ^ 8]

/-- Modelled from the spec: `write_bitcoin_varint(w, n)` appends
`varint_bytes n`. -/
def write_bitcoin_varint (w : List Nat) (n : Nat) : List Nat := w ++ varint_bytes n

/-- Modelled from the spec: `write_bytes_unchecked(w, b)` appends the bytes of
`b` (`apps/bitcoin/writers.py`, absent from the sources). -/
def write_bytes_unchecked (w : List Nat) (b : List Nat) : List Nat := w ++ b

/-! ## Helpers from `scripts.py` lines 509-523 -/

/-- `write_signature_prefixed(w, signature, hash_type)`, lines 509-512. -/
def write_signature_prefixed (w : List Nat) (signature : List Nat) (hash_type : Nat) :
    List Nat :=
  write_bytes_unchecked (write_bitcoin_varint w (signature.length + 1)) signature
    ++ [hash_type]

/-- `append_signature(w, signature, hash_type)`, lines 515-518. -/
def append_signature (w : List Nat) (signature : List Nat) (hash_type : Nat) : List Nat :=
  write_bytes_unchecked (write_op_push w (signature.length + 1)) signature ++ [hash_type]

/-- `append_pubkey(w, pubkey)`, lines 521-523. -/
def append_pubkey (w : List Nat) (pubkey : List Nat) : List Nat :=
  write_bytes_unchecked (write_op_push w pubkey.length) pubkey

/-! ## P2PKH / P2SH (`scripts.py` lines 137-182) -/

/-- `input_script_p2pkh_or_p2sh(pubkey, signature, hash_type)`, lines 137-143. -/
def input_script_p2pkh_or_p2sh (pubkey : List Nat) (signature : List Nat)
    (hash_type : Nat) : List Nat :=
  append_pubkey (append_signature [] signature hash_type) pubkey

/-- `read_input_script_p2pkh(script_sig)`, lines 146-159. -/
def read_input_script_p2pkh (script_sig : List Nat) :
    Except Err (List (List Nat) × List (List Nat × Nat)) := do
  let (n, offset) ← read_op_push script_sig 0
  let signature := slice script_sig offset (offset + n - 1)
  let sighash_type ← idx script_sig (offset + n - 1)
  let offset := offset + n
  let (n2, offset2) ← read_op_push script_sig offset
  if offset2 + n2 ≠ script_sig.length then
    Except.error (Err.dataError "Invalid scriptSig.")
  else
    Except.ok ([slice script_sig offset2 (offset2 + n2)], [(signature, sighash_type)])

/-- `output_script_p2pkh(pubkeyhash)`, lines 162-171: `utils.ensure` demands a
20-byte hash, then emits the 25-byte script `76 A9 14 <hash> 88 AC`. -/
def output_script_p2pkh (pubkeyhash : List Nat) : Except Err (List Nat) :=
  if pubkeyhash.length = 20 then
    Except.ok ([0x76, 0xA9, 0x14] ++ pubkeyhash ++ [0x88, 0xAC])
  else
    Except.error Err.ensureFailed

/-! ## SegWit witnesses (`scripts.py` lines 264-361) -/

/-- `witness_p2wpkh(signature, pubkey, hash_type)`, lines 264-269. -/
def witness_p2wpkh (signature : List Nat) (pubkey : List Nat) (hash_type : Nat) :
    List Nat :=
  write_bitcoin_varint
      (write_signature_prefixed (write_bitcoin_varint [] 0x02) signature hash_type)
      pubkey.length
    ++ pubkey

/-- `read_witness_p2wpkh(witness)`, lines 272-287. -/
def read_witness_p2wpkh (witness : List Nat) :
    Except Err (List (List Nat) × List (List Nat × Nat)) := do
  let w0 ← idx witness 0
  if w0 ≠ 2 then Except.error (Err.dataError "Invalid witness.")
  else do
    let (n, offset) ← read_bitcoin_varint witness 1
    let signature := slice witness offset (offset + n - 1)
    let sighash_type ← idx witness (offset + n - 1)
    let offset := offset + n
    let (n2, offset2) ← read_bitcoin_varint witness offset
    if offset2 + n2 ≠ witness.length then Except.error (Err.dataError "Invalid witness.")
    else Except.ok ([slice witness offset2 (offset2 + n2)], [(signature, sighash_type)])

/-- The signature-reading loop of `read_witness_p2wsh` (lines 348-354): read
`count` varint-framed `signature || hash_type` items starting at `offset`,
returning the items in order together with the final offset. -/
def read_p2wsh_signatures (witness : List Nat) :
    Nat → Nat → Except Err (List (List Nat × Nat) × Nat)
  | offset, 0 => Except.ok ([], offset)
  | offset, count + 1 => do
    let (n, offset') ← read_bitcoin_varint witness offset
    let signature := slice witness offset' (offset' + n - 1)
    let sighash_type ← idx witness (offset' + n - 1)
    let (rest, final) ← read_p2wsh_signatures witness (offset' + n) count
    Except.ok ((signature, sighash_type) :: rest, final)

/-- `read_witness_p2wsh(witness)`, lines 339-361. -/
def read_witness_p2wsh (witness : List Nat) :
    Except Err (List Nat × List (List Nat × Nat)) := do
  let (item_count, offset) ← read_bitcoin_varint witness 0
  let b ← idx witness offset
  if b ≠ 0 then Except.error (Err.dataError "Invalid witness.")
  else do
    let (signatures, offset') ← read_p2wsh_signatures witness (offset + 1) (item_count - 2)
    let (n, offset'') ← read_bitcoin_varint witness offset'
    if offset'' + n ≠ witness.length then Except.error (Err.dataError "Invalid witness.")
    else Except.ok (slice witness offset'' (offset'' + n), signatures)

/-! ## Multisig (`scripts.py` lines 370-490) -/

/-- `MultisigRedeemScriptType` with its pubkeys already resolved.
Modelled from the spec (section 4.D): `multisig_get_pubkeys` derives the
ordered list of 33-byte public keys (`apps/bitcoin/multisig.py`, absent from
the sources), so the structure here carries that resolved list directly,
together with the threshold `m` and the per-signer signature slots
(`[]` is the empty sentinel, standing for both `b""` and `None`). -/
structure MultisigRedeemScriptType where
  pubkeys : List (List Nat)
  m : Nat
  signatures : List (List Nat)
deriving DecidableEq, Repr

/-- Modelled from the spec: `multisig_get_pubkeys(multisig)` returns the
resolved ordered pubkey list (spec section 4.D). -/
def multisig_get_pubkeys (multisig : MultisigRedeemScriptType) : List (List Nat) :=
  multisig.pubkeys

/-- Modelled from the spec: `multisig_get_pubkey_count(multisig)` returns `n`,
the number of public keys (spec section 4.D). -/
def multisig_get_pubkey_count (multisig : MultisigRedeemScriptType) : Nat :=
  multisig.pubkeys.length

/-- `output_script_multisig_length(pubkeys, m)`, lines 462-463. -/
def output_script_multisig_length (pubkeys : List (List Nat)) (_m : Nat) : Nat :=
  1 + pubkeys.length * (1 + 33) + 1 + 1

/-- `write_output_script_multisig(w, pubkeys, m)`, lines 447-459: validates
`1 ≤ m ≤ n ≤ 15` and 33-byte pubkeys, then appends
`(0x50+m), push(pubkey_i)…, (0x50+n), 0xAE`. -/
def write_output_script_multisig (w : List Nat) (pubkeys : List (List Nat)) (m : Nat) :
    Except Err (List Nat) :=
  let n := pubkeys.length
  if n < 1 ∨ n > 15 ∨ m < 1 ∨ m > 15 ∨ m > n then
    Except.error (Err.dataError "Invalid multisig parameters")
  else if pubkeys.any (fun pubkey => pubkey.length ≠ 33) then
    Except.error (Err.dataError "Invalid multisig parameters")
  else
    Except.ok ((w ++ [0x50 + m]) ++ (pubkeys.map (fun p => append_pubkey [] p)).flatten
      ++ [0x50 + n, 0xAE])

/-- `output_script_multisig(pubkeys, m)`, lines 441-444. -/
def output_script_multisig (pubkeys : List (List Nat)) (m : Nat) : Except Err (List Nat) :=
  write_output_script_multisig [] pubkeys m

/-- The pubkey-reading loop of `read_output_script_multisig` (lines 478-485):
read `count` op-push framed public keys starting at `offset`, each of which
must push exactly 33 bytes, returning the keys in order and the final
offset. -/
def read_multisig_keys (script : List Nat) :
    Nat → Nat → Except Err (List (List Nat) × Nat)
  | offset, 0 => Except.ok ([], offset)
  | offset, count + 1 => do
    let (n, offset') ← read_op_push script offset
    if n ≠ 33 then Except.error (Err.dataError "Invalid multisig script")
    else do
      let (rest, final) ← read_multisig_keys script (offset' + n) count
      Except.ok (slice script offset' (offset' + n) :: rest, final)

/-- `read_output_script_multisig(script)`, lines 466-490. -/
def read_output_script_multisig (script : List Nat) :
    Except Err (List (List Nat) × Nat) := do
  let last ← idx script (script.length - 1)
  if last ≠ 0xAE then Except.error (Err.dataError "Invalid multisig script")
  else do
    let first ← idx script 0
    let nb ← idx script (script.length - 2)
    if ¬(0x51 ≤ first ∧ first < 0x60) ∨ ¬(0x51 ≤ nb ∧ nb < 0x60) then
      Except.error (Err.dataError "Invalid multisig script")
    else
      let threshold := first - 0x50
      let pubkey_count := nb - 0x50
      if threshold > pubkey_count then
        Except.error (Err.dataError "Invalid multisig script")
      else do
        let (public_keys, offset) ← read_multisig_keys script 1 pubkey_count
        if offset + 2 ≠ script.length then
          Except.error (Err.dataError "Invalid multisig script")
        else Except.ok (public_keys, threshold)

/-- `CoinInfo` as consumed by this core (spec section 6): the `decred` flag
and the coin's `script_hash` function used by `ecdsa_hash_pubkey` (an
external hash primitive, taken as a parameter). -/
structure CoinInfo where
  decred : Bool
  script_hash : List Nat → List Nat

/-- `input_script_multisig(multisig, signature, signature_index, hash_type, coin)`,
lines 370-410.  `utils.BITCOIN_ONLY` is a build flag, passed here as the
explicit argument `bitcoin_only`.  The Python code mutates the caller's
`multisig.signatures` in place (`signatures = multisig.signatures` aliases,
then `signatures[signature_index] = signature`); the state passing makes that
explicit: the second component of the result is the value of
`multisig.signatures` after the call. -/
def input_script_multisig (bitcoin_only : Bool) (multisig : MultisigRedeemScriptType)
    (signature : List Nat) (signature_index : Nat) (hash_type : Nat) (coin : CoinInfo) :
    Except Err (List Nat × List (List Nat)) := do
  let slot ← idx multisig.signatures signature_index
  if slot.length > 0 then Except.error (Err.dataError "Invalid multisig parameters")
  else
    let signatures := multisig.signatures.set signature_index signature
    let pubkeys := multisig_get_pubkeys multisig
    let redeem_script_length := output_script_multisig_length pubkeys multisig.m
    let head := if bitcoin_only || !coin.decred then [0x00] else []
    let sig_bytes :=
      (signatures.map (fun s => if s.length ≠ 0 then append_signature [] s hash_type
        else [])).flatten
    do
      let redeem ← write_output_script_multisig [] pubkeys multisig.m
      Except.ok (head ++ sig_bytes ++ op_push_bytes redeem_script_length ++ redeem,
        signatures)

/-- Line 297-299 of `witness_p2wsh`: the fresh list
`multisig.signatures + [None] * (multisig_get_pubkey_count(multisig) - len(...))`.
`[None] * k` is empty for non-positive `k`, which matches truncated `Nat`
subtraction. -/
def stretched_signatures (multisig : MultisigRedeemScriptType) : List (List Nat) :=
  multisig.signatures
    ++ List.replicate (multisig_get_pubkey_count multisig - multisig.signatures.length) []

/-- `witness_p2wsh(multisig, signature, signature_index, hash_type)`,
lines 290-336.  The function assigns into the freshly concatenated
`stretched_signatures` list, so the caller's `multisig.signatures` is left
unchanged; as in `input_script_multisig`, the second component of the result
is the value of `multisig.signatures` after the call. -/
def witness_p2wsh (multisig : MultisigRedeemScriptType) (signature : List Nat)
    (signature_index : Nat) (hash_type : Nat) :
    Except Err (List Nat × List (List Nat)) := do
  let slot ← idx (stretched_signatures multisig) signature_index
  if slot.length ≠ 0 then Except.error (Err.dataError "Invalid multisig parameters")
  else
    let signatures := (stretched_signatures multisig).set signature_index signature
    let signatures := signatures.filter (fun s => s.length != 0)
    let num_of_witness_items := 1 + signatures.length + 1
    let pubkeys := multisig_get_pubkeys multisig
    let redeem_script_length := output_script_multisig_length pubkeys multisig.m
    do
      let redeem ← write_output_script_multisig [] pubkeys multisig.m
      Except.ok (varint_bytes num_of_witness_items ++ varint_bytes 0
          ++ (signatures.map (fun s => write_signature_prefixed [] s hash_type)).flatten
          ++ varint_bytes redeem_script_length ++ redeem,
        multisig.signatures)

/-- The `while True` loop of `read_input_script_multisig` (lines 423-431),
with an explicit fuel argument for termination (the loop advances `offset` by
at least one byte per iteration and only recurses while `offset' + n` is
below the buffer length, so fuel `script_sig.length + 1` can never run out;
the fuel-exhaustion branch is arbitrary).  Returns the accumulated
`(signature, sighash_type)` pairs and the `(n, offset)` pair live at the
`break`. -/
def read_ims_loop (script_sig : List Nat) :
    Nat → Nat → List (List Nat × Nat) →
    Except Err (List (List Nat × Nat) × Nat × Nat)
  | 0, _, _ => Except.error Err.indexError
  | fuel + 1, offset, acc => do
    let (n, offset') ← read_op_push script_sig offset
    if offset' + n ≥ script_sig.length then Except.ok (acc.reverse, n, offset')
    else
      let signature := slice script_sig offset' (offset' + n - 1)
      let sighash_type ← idx script_sig (offset' + n - 1)
      read_ims_loop script_sig fuel (offset' + n) ((signature, sighash_type) :: acc)

/-- `read_input_script_multisig(script_sig)`, lines 413-438. -/
def read_input_script_multisig (script_sig : List Nat) :
    Except Err (List Nat × List (List Nat × Nat)) := do
  let b ← idx script_sig 0
  if b ≠ 0 then Except.error (Err.dataError "Invalid witness.")
  else do
    let (signatures, n, offset) ← read_ims_loop script_sig (script_sig.length + 1) 1 []
    if offset + n ≠ script_sig.length then
      Except.error (Err.dataError "Invalid scriptSig.")
    else Except.ok (slice script_sig offset (offset + n), signatures)

/-! ## BIP-143 script code (`scripts.py` lines 111-129, `common.py` lines 71-79) -/

/-- `InputScriptType` enumeration from `trezor.messages`. -/
inductive InputScriptType where
  | SPENDADDRESS
  | SPENDMULTISIG
  | SPENDP2SHWITNESS
  | SPENDWITNESS
  | EXTERNAL
deriving DecidableEq, Repr

/-- The part of `TxInputType` consumed by `bip143_derive_script_code`. -/
structure TxInputType where
  script_type : InputScriptType

/-- `ecdsa_hash_pubkey(pubkey, coin)` from `common.py` lines 71-79:
`utils.ensure` checks the pubkey length against its leading byte
(`0x04`: 65 bytes, `0x00`: 1 byte, otherwise 33 bytes), then applies the
coin's `script_hash`. -/
def ecdsa_hash_pubkey (pubkey : List Nat) (coin : CoinInfo) : Except Err (List Nat) := do
  let b0 ← idx pubkey 0
  if b0 = 0x04 then
    if pubkey.length = 65 then Except.ok (coin.script_hash pubkey)
    else Except.error Err.ensureFailed
  else if b0 = 0x00 then
    if pubkey.length = 1 then Except.ok (coin.script_hash pubkey)
    else Except.error Err.ensureFailed
  else
    if pubkey.length = 33 then Except.ok (coin.script_hash pubkey)
    else Except.error Err.ensureFailed

/-- `bip143_derive_script_code(txi, public_keys, threshold, coin)`,
lines 111-129. -/
def bip143_derive_script_code (txi : TxInputType) (public_keys : List (List Nat))
    (threshold : Nat) (coin : CoinInfo) : Except Err (List Nat) :=
  if public_keys.length > 1 then output_script_multisig public_keys threshold
  else
    let p2pkh :=
      txi.script_type = InputScriptType.SPENDWITNESS
        ∨ txi.script_type = InputScriptType.SPENDP2SHWITNESS
        ∨ txi.script_type = InputScriptType.SPENDADDRESS
        ∨ txi.script_type = InputScriptType.EXTERNAL
    if p2pkh then do
      let pk ← idx public_keys 0
      let h ← ecdsa_hash_pubkey pk coin
      output_script_p2pkh h
    else
      Except.error (Err.dataError "Unknown input script type for bip143 script code")

/-! ## CoinJoin coordinator validation (`authorize_coinjoin.py` lines 22-35) -/

/-- `_MAX_COORDINATOR_LEN` from `authorize_coinjoin.py` line 22. -/
def MAX_COORDINATOR_LEN : Nat := 18

/-- The coordinator validation at the top of `authorize_coinjoin`
(`authorize_coinjoin.py` lines 32-35), the only check performed before the
path validation and the UI prompts.  The coordinator string is modelled as
its list of Unicode code points (`ord(x)` for each character). -/
def authorize_coinjoin_coordinator_check (coordinator : List Nat) : Except Err Unit :=
  if coordinator.length > MAX_COORDINATOR_LEN
      ∨ coordinator.any (fun x => decide (x < 32) || decide (x > 126)) then
    Except.error (Err.dataError "Invalid coordinator name.")
  else Except.ok ()

/-- The spec's acceptance predicate for C3, stated from the spec's words (not
from the code): the coordinator matches the regex stated as a set of
characters between 0x20 and 0x7E, repeated between 1 and 18 times, anchored
at both ends. -/
def coordinator_matches_regex (coordinator : List Nat) : Prop :=
  1 ≤ coordinator.length ∧ coordinator.length ≤ 18
    ∧ ∀ x ∈ coordinator, 0x20 ≤ x ∧ x ≤ 0x7E

instance (coordinator : List Nat) : Decidable (coordinator_matches_regex coordinator) := by
  unfold coordinator_matches_regex
  infer_instance

/-! ## Monad and list access helper lemmas -/

theorem ok_bind {α β : Type} (x : α) (f : α → Except Err β) :
    (Except.ok x >>= f) = f x := rfl

theorem error_bind {α β : Type} (e : Err) (f : α → Except Err β) :
    ((Except.error e : Except Err α) >>= f) = Except.error e := rfl

theorem get_pre {α : Type} (pre l : List α) (i : Nat) :
    (pre ++ l)[pre.length + i]? = l[i]? := by
  induction pre with
  | nil => simp
  | cons a pre ih => simpa [Nat.succ_add] using ih

theorem idx_pre {α : Type} (pre l : List α) (i : Nat) :
    idx (pre ++ l) (pre.length + i) = idx l i := by
  simp only [idx, get_pre]

theorem idx_pre0 {α : Type} (pre : List α) (x : α) (l : List α) :
    idx (pre ++ x :: l) pre.length = Except.ok x := by
  have h := idx_pre pre (x :: l) 0
  simpa [idx] using h

theorem idx_lt {α : Type} {l : List α} {i : Nat} {v : α}
    (h : idx l i = Except.ok v) : i < l.length := by
  by_contra hge
  have : l[i]? = none := by
    rw [List.getElem?_eq_none_iff]
    omega
  simp [idx, this] at h

theorem idx_mono {α : Type} {s : List α} {i : Nat} {v : α} (t : List α)
    (h : idx s i = Except.ok v) : idx (s ++ t) i = Except.ok v := by
  have hlt : i < s.length := idx_lt h
  have hs : s[i]? = some v := by
    unfold idx at h
    cases hg : s[i]? with
    | none => rw [hg] at h; exact absurd h (by simp)
    | some w => rw [hg] at h; simp at h; rw [h]
  have : (s ++ t)[i]? = some v := by
    rw [List.getElem?_append_left hlt]; exact hs
  simp [idx, this]

theorem take_app_le {α : Type} {b : Nat} {s : List α} (t : List α) (h : b ≤ s.length) :
    (s ++ t).take b = s.take b := by
  induction s generalizing b with
  | nil =>
    have : b = 0 := by simpa using h
    simp [this]
  | cons a s ih =>
    cases b with
    | zero => simp
    | succ b =>
      simp only [List.cons_append, List.take_succ_cons]
      exact congrArg (a :: ·) (ih (by simpa using h))

theorem slice_mono {α : Type} {a b : Nat} {s : List α} (t : List α) (h : b ≤ s.length) :
    slice (s ++ t) a b = slice s a b := by
  simp [slice, take_app_le t h]

theorem slice_mid {α : Type} (pre mid suf : List α) :
    slice (pre ++ (mid ++ suf)) pre.length (pre.length + mid.length) = mid := by
  induction pre with
  | nil =>
    simp only [List.nil_append, List.length_nil, Nat.zero_add, slice, List.drop_zero]
    induction mid with
    | nil => simp
    | cons m ms ih => simp only [List.cons_append, List.length_cons, List.take_succ_cons]
                      exact congrArg (m :: ·) ih
  | cons a pre ih => simpa [slice, Nat.succ_add] using ih

/-! ## Reader-writer correspondence lemmas -/

theorem pure_eq_ok {α : Type} (x : α) : (pure x : Except Err α) = Except.ok x := rfl

theorem read_op_push_at (pre rest : List Nat) {n : Nat} (hn : n ≤ 0xFFFFFFFF) :
    read_op_push (pre ++ (op_push_bytes n ++ rest)) pre.length =
      Except.ok (n, pre.length + (op_push_bytes n).length) := by
  unfold op_push_bytes
  by_cases h1 : n < 0x4C
  · simp only [if_pos h1, List.cons_append, List.nil_append]
    unfold read_op_push
    rw [idx_pre0, ok_bind]
    rw [if_pos h1, pure_eq_ok]
    simp
  · by_cases h2 : n ≤ 0xFF
    · simp only [if_neg h1, if_pos h2, List.cons_append, List.nil_append]
      unfold read_op_push
      rw [idx_pre0, ok_bind]
      have hb : idx (pre ++ 0x4C :: n :: rest) (pre.length + 1) = Except.ok n := by
        have h := idx_pre pre (0x4C :: n :: rest) 1
        simpa [idx] using h
      rw [if_neg (by omega), if_pos rfl, hb, ok_bind, pure_eq_ok]
      simp
    · by_cases h3 : n ≤ 0xFFFF
      · simp only [if_neg h1, if_neg h2, if_pos h3, List.cons_append, List.nil_append]
        unfold read_op_push
        rw [idx_pre0, ok_bind]
        have hb0 : idx (pre ++ 0x4D :: n % 2 ^ 8 :: n / 2 ^ 8 % 2 ^ 8 :: rest)
            (pre.length + 1) = Except.ok (n % 2 ^ 8) := by
          have h := idx_pre pre (0x4D :: n % 2 ^ 8 :: n / 2 ^ 8 % 2 ^ 8 :: rest) 1
          simpa [idx] using h
        have hb1 : idx (pre ++ 0x4D :: n % 2 ^ 8 :: n / 2 ^ 8 % 2 ^ 8 :: rest)
            (pre.length + 1 + 1) = Except.ok (n / 2 ^ 8 % 2 ^ 8) := by
          have h := idx_pre pre (0x4D :: n % 2 ^ 8 :: n / 2 ^ 8 % 2 ^ 8 :: rest) 2
          rw [show pre.length + 2 = pre.length + 1 + 1 by omega] at h
          simpa [idx] using h
        rw [if_neg (by omega), if_neg (by omega), if_pos rfl, hb0, ok_bind, hb1, ok_bind,
          pure_eq_ok]
        simp only [Except.ok.injEq, Prod.mk.injEq, List.length_cons, List.length_nil,
          show (2:Nat) ^ 8 = 256 from rfl, show (2:Nat) ^ 16 = 65536 from rfl,
          show (2:Nat) ^ 24 = 16777216 from rfl, and_true, true_and]
        omega
      · simp only [if_neg h1, if_neg h2, if_neg h3, List.cons_append, List.nil_append]
        unfold read_op_push
        rw [idx_pre0, ok_bind]
        have hb0 : idx (pre ++ 0x4E :: n % 2 ^ 8 :: n / 2 ^ 8 % 2 ^ 8 ::
            n / 2 ^ 16 % 2 ^ 8 :: n / 2 ^ 24 % 2 ^ 8 :: rest)
            (pre.length + 1) = Except.ok (n % 2 ^ 8) := by
          have h := idx_pre pre (0x4E :: n % 2 ^ 8 :: n / 2 ^ 8 % 2 ^ 8 ::
            n / 2 ^ 16 % 2 ^ 8 :: n / 2 ^ 24 % 2 ^ 8 :: rest) 1
          simpa [idx] using h
        have hb1 : idx (pre ++ 0x4E :: n % 2 ^ 8 :: n / 2 ^ 8 % 2 ^ 8 ::
            n / 2 ^ 16 % 2 ^ 8 :: n / 2 ^ 24 % 2 ^ 8 :: rest)
            (pre.length + 1 + 1) = Except.ok (n / 2 ^ 8 % 2 ^ 8) := by
          have h := idx_pre pre (0x4E :: n % 2 ^ 8 :: n / 2 ^ 8 % 2 ^ 8 ::
            n / 2 ^ 16 % 2 ^ 8 :: n / 2 ^ 24 % 2 ^ 8 :: rest) 2
          rw [show pre.length + 2 = pre.length + 1 + 1 by omega] at h
          simpa [idx] using h
        have hb2 : idx (pre ++ 0x4E :: n % 2 ^ 8 :: n / 2 ^ 8 % 2 ^ 8 ::
            n / 2 ^ 16 % 2 ^ 8 :: n / 2 ^ 24 % 2 ^ 8 :: rest)
            (pre.length + 1 + 2) = Except.ok (n / 2 ^ 16 % 2 ^ 8) := by
          have h := idx_pre pre (0x4E :: n % 2 ^ 8 :: n / 2 ^ 8 % 2 ^ 8 ::
            n / 2 ^ 16 % 2 ^ 8 :: n / 2 ^ 24 % 2 ^ 8 :: rest) 3
          rw [show pre.length + 3 = pre.length + 1 + 2 by omega] at h
          simpa [idx] using h
        have hb3 : idx (pre ++ 0x4E :: n % 2 ^ 8 :: n / 2 ^ 8 % 2 ^ 8 ::
            n / 2 ^ 16 % 2 ^ 8 :: n / 2 ^ 24 % 2 ^ 8 :: rest)
            (pre.length + 1 + 3) = Except.ok (n / 2 ^ 24 % 2 ^ 8) := by
          have h := idx_pre pre (0x4E :: n % 2 ^ 8 :: n / 2 ^ 8 % 2 ^ 8 ::
            n / 2 ^ 16 % 2 ^ 8 :: n / 2 ^ 24 % 2 ^ 8 :: rest) 4
          rw [show pre.length + 4 = pre.length + 1 + 3 by omega] at h
          simpa [idx] using h
        rw [if_neg (by omega), if_neg (by omega), if_neg (by omega), if_pos rfl,
          hb0, ok_bind, hb1, ok_bind, hb2, ok_bind, hb3, ok_bind, pure_eq_ok]
        simp only [Except.ok.injEq, Prod.mk.injEq, List.length_cons, List.length_nil,
          show (2:Nat) ^ 8 = 256 from rfl, show (2:Nat) ^ 16 = 65536 from rfl,
          show (2:Nat) ^ 24 = 16777216 from rfl, and_true, true_and]
        omega

theorem read_varint_at (pre rest : List Nat) {n : Nat} (hn : n ≤ 0xFFFFFFFF) :
    read_bitcoin_varint (pre ++ (varint_bytes n ++ rest)) pre.length =
      Except.ok (n, pre.length + (varint_bytes n).length) := by
  unfold varint_bytes
  by_cases h1 : n < 253
  · simp only [if_pos h1, List.cons_append, List.nil_append]
    unfold read_bitcoin_varint
    rw [idx_pre0, ok_bind]
    rw [if_pos h1, pure_eq_ok]
    simp
  · by_cases h2 : n ≤ 0xFFFF
    · simp only [if_neg h1, if_pos h2, List.cons_append, List.nil_append]
      unfold read_bitcoin_varint
      rw [idx_pre0, ok_bind]
      have hb0 : idx (pre ++ 0xFD :: n % 2 ^ 8 :: n / 2 ^ 8 % 2 ^ 8 :: rest)
          (pre.length + 1) = Except.ok (n % 2 ^ 8) := by
        have h := idx_pre pre (0xFD :: n % 2 ^ 8 :: n / 2 ^ 8 % 2 ^ 8 :: rest) 1
        simpa [idx] using h
      have hb1 : idx (pre ++ 0xFD :: n % 2 ^ 8 :: n / 2 ^ 8 % 2 ^ 8 :: rest)
          (pre.length + 1 + 1) = Except.ok (n / 2 ^ 8 % 2 ^ 8) := by
        have h := idx_pre pre (0xFD :: n % 2 ^ 8 :: n / 2 ^ 8 % 2 ^ 8 :: rest) 2
        rw [show pre.length + 2 = pre.length + 1 + 1 by omega] at h
        simpa [idx] using h
      rw [if_neg (by omega), if_pos rfl, hb0, ok_bind, hb1, ok_bind, pure_eq_ok]
      simp only [Except.ok.injEq, Prod.mk.injEq, List.length_cons, List.length_nil,
        show (2:Nat) ^ 8 = 256 from rfl, and_true, true_and]
      omega
    · have h3 : n ≤ 0xFFFFFFFF := hn
      simp only [if_neg h1, if_neg h2, if_pos h3, List.cons_append, List.nil_append]
      unfold read_bitcoin_varint
      rw [idx_pre0, ok_bind]
      have hb0 : idx (pre ++ 0xFE :: n % 2 ^ 8 :: n / 2 ^ 8 % 2 ^ 8 ::
          n / 2 ^ 16 % 2 ^ 8 :: n / 2 ^ 24 % 2 ^ 8 :: rest)
          (pre.length + 1) = Except.ok (n % 2 ^ 8) := by
        have h := idx_pre pre (0xFE :: n % 2 ^ 8 :: n / 2 ^ 8 % 2 ^ 8 ::
          n / 2 ^ 16 % 2 ^ 8 :: n / 2 ^ 24 % 2 ^ 8 :: rest) 1
        simpa [idx] using h
      have hb1 : idx (pre ++ 0xFE :: n % 2 ^ 8 :: n / 2 ^ 8 % 2 ^ 8 ::
          n / 2 ^ 16 % 2 ^ 8 :: n / 2 ^ 24 % 2 ^ 8 :: rest)
          (pre.length + 1 + 1) = Except.ok (n / 2 ^ 8 % 2 ^ 8) := by
        have h := idx_pre pre (0xFE :: n % 2 ^ 8 :: n / 2 ^ 8 % 2 ^ 8 ::
          n / 2 ^ 16 % 2 ^ 8 :: n / 2 ^ 24 % 2 ^ 8 :: rest) 2
        rw [show pre.length + 2 = pre.length + 1 + 1 by omega] at h
        simpa [idx] using h
      have hb2 : idx (pre ++ 0xFE :: n % 2 ^ 8 :: n / 2 ^ 8 % 2 ^ 8 ::
          n / 2 ^ 16 % 2 ^ 8 :: n / 2 ^ 24 % 2 ^ 8 :: rest)
          (pre.length + 1 + 2) = Except.ok (n / 2 ^ 16 % 2 ^ 8) := by
        have h := idx_pre pre (0xFE :: n % 2 ^ 8 :: n / 2 ^ 8 % 2 ^ 8 ::
          n / 2 ^ 16 % 2 ^ 8 :: n / 2 ^ 24 % 2 ^ 8 :: rest) 3
        rw [show pre.length + 3 = pre.length + 1 + 2 by omega] at h
        simpa [idx] using h
      have hb3 : idx (pre ++ 0xFE :: n % 2 ^ 8 :: n / 2 ^ 8 % 2 ^ 8 ::
          n / 2 ^ 16 % 2 ^ 8 :: n / 2 ^ 24 % 2 ^ 8 :: rest)
          (pre.length + 1 + 3) = Except.ok (n / 2 ^ 24 % 2 ^ 8) := by
        have h := idx_pre pre (0xFE :: n % 2 ^ 8 :: n / 2 ^ 8 % 2 ^ 8 ::
          n / 2 ^ 16 % 2 ^ 8 :: n / 2 ^ 24 % 2 ^ 8 :: rest) 4
        rw [show pre.length + 4 = pre.length + 1 + 3 by omega] at h
        simpa [idx] using h
      rw [if_neg (by omega), if_neg (by omega), if_pos rfl,
        hb0, ok_bind, hb1, ok_bind, hb2, ok_bind, hb3, ok_bind, pure_eq_ok]
      simp only [Except.ok.injEq, Prod.mk.injEq, List.length_cons, List.length_nil,
        show (2:Nat) ^ 8 = 256 from rfl, show (2:Nat) ^ 16 = 65536 from rfl,
        show (2:Nat) ^ 24 = 16777216 from rfl, and_true, true_and]
      omega

/-! ## Claim C1 -/

/-- Claim C1: for every 33-byte pubkey `P`, signature byte string `S` and
hash type `ht` in `[0, 255]`, parsing the legacy P2PKH scriptSig built by
`input_script_p2pkh_or_p2sh` recovers the inputs exactly:
`read_input_script_p2pkh (input_script_p2pkh_or_p2sh P S ht) = ([P], [(S, ht)])`.
The bound on `S.length` reflects the domain of the spec-modelled
`write_op_push` (the spec defines it only up to `0xFFFFFFFF`). -/
theorem C1_p2pkh_roundtrip (P S : List Nat) (ht : Nat)
    (hP : P.length = 33) (hht : ht ≤ 255) (hS : S.length + 1 ≤ 0xFFFFFFFF) :
    read_input_script_p2pkh (input_script_p2pkh_or_p2sh P S ht) =
      Except.ok ([P], [(S, ht)]) := by
  have hscript : input_script_p2pkh_or_p2sh P S ht =
      op_push_bytes (S.length + 1) ++ ((S ++ [ht]) ++ ([33] ++ P)) := by
    unfold input_script_p2pkh_or_p2sh append_pubkey append_signature write_op_push
      write_bytes_unchecked
    rw [hP]
    have h33 : op_push_bytes 33 = [33] := rfl
    rw [h33]
    simp [List.append_assoc]
  rw [hscript]
  set E1 := op_push_bytes (S.length + 1) with hE1
  unfold read_input_script_p2pkh
  have h0 : read_op_push (E1 ++ ((S ++ [ht]) ++ ([33] ++ P))) 0 =
      Except.ok (S.length + 1, E1.length) := by
    have h := read_op_push_at [] ((S ++ [ht]) ++ ([33] ++ P)) hS
    simpa using h
  rw [h0, ok_bind]
  have hidx : idx (E1 ++ (S ++ [ht] ++ ([33] ++ P))) (E1.length + (S.length + 1) - 1) =
      Except.ok ht := by
    have h := idx_pre0 (E1 ++ S) ht ([33] ++ P)
    rw [show E1.length + (S.length + 1) - 1 = (E1 ++ S).length by
      simp [List.length_append]]
    simpa [List.append_assoc] using h
  have h2 : read_op_push (E1 ++ (S ++ [ht] ++ ([33] ++ P))) (E1.length + (S.length + 1)) =
      Except.ok (P.length, E1.length + S.length + 2) := by
    have h := read_op_push_at (E1 ++ (S ++ [ht])) P (n := P.length) (by omega)
    rw [hP] at h
    rw [show op_push_bytes 33 = [33] from rfl] at h
    rw [show (P.length : Nat) = 33 from hP]
    simp only [List.append_assoc, List.length_append, List.length_cons, List.length_nil,
      List.length_singleton] at h ⊢
    convert h using 3
  have hsig : slice (E1 ++ (S ++ [ht] ++ ([33] ++ P))) E1.length
      (E1.length + (S.length + 1) - 1) = S := by
    have h := slice_mid E1 S ([ht] ++ ([33] ++ P))
    rw [show E1.length + (S.length + 1) - 1 = E1.length + S.length by omega]
    simpa [List.append_assoc] using h
  have hpk : slice (E1 ++ (S ++ [ht] ++ ([33] ++ P))) (E1.length + S.length + 2)
      (E1.length + S.length + 2 + P.length) = P := by
    have h := slice_mid (E1 ++ (S ++ ([ht] ++ [33]))) P []
    simp only [List.append_nil, List.append_assoc, List.length_append, List.length_cons,
      List.length_nil] at h ⊢
    convert h using 2
  simp only [hidx, ok_bind, h2, hsig]
  rw [if_neg (by simp [List.length_append]; omega)]
  rw [hpk]

/-- Witness for C1 at a concrete input. -/
theorem C1_p2pkh_roundtrip_witness :
    read_input_script_p2pkh
        (input_script_p2pkh_or_p2sh (List.replicate 33 7) [1, 2] 9) =
      Except.ok ([List.replicate 33 7], [([1, 2], 9)]) :=
  C1_p2pkh_roundtrip (List.replicate 33 7) [1, 2] 9 (by decide) (by decide) (by decide)

/-! ## Bare multisig output script lemmas -/

theorem map_append_pubkey (pubkeys : List (List Nat))
    (hlen : ∀ pk ∈ pubkeys, pk.length = 33) :
    pubkeys.map (fun p => append_pubkey [] p) = pubkeys.map (fun p => 33 :: p) := by
  apply List.map_congr_left
  intro p hp
  have h33 : p.length = 33 := hlen p hp
  simp [append_pubkey, write_bytes_unchecked, write_op_push, h33,
    show op_push_bytes 33 = [33] from rfl]

theorem flatten_keys_length (pubkeys : List (List Nat))
    (hlen : ∀ pk ∈ pubkeys, pk.length = 33) :
    ((pubkeys.map (fun p => 33 :: p)).flatten).length = 34 * pubkeys.length := by
  induction pubkeys with
  | nil => simp
  | cons p ps ih =>
    have h33 : p.length = 33 := hlen p (List.mem_cons_self p ps)
    have ih' := ih (fun pk hpk => hlen pk (List.mem_cons_of_mem p hpk))
    simp [h33, ih']
    ring

theorem output_script_multisig_ok (pubkeys : List (List Nat)) (m : Nat)
    (h1 : 1 ≤ m) (h2 : m ≤ pubkeys.length) (h3 : pubkeys.length ≤ 15)
    (hlen : ∀ pk ∈ pubkeys, pk.length = 33) :
    output_script_multisig pubkeys m =
      Except.ok ([0x50 + m] ++ (pubkeys.map (fun p => 33 :: p)).flatten
        ++ [0x50 + pubkeys.length, 0xAE]) := by
  unfold output_script_multisig write_output_script_multisig
  rw [if_neg (by push_neg; omega)]
  rw [if_neg (by
    simp only [List.any_eq_true, not_exists, not_and, Bool.not_eq_true]
    intro pk hpk
    simp [hlen pk hpk])]
  rw [map_append_pubkey pubkeys hlen]
  simp

theorem read_multisig_keys_at (pubkeys : List (List Nat)) :
    ∀ (pre suf : List Nat), (∀ pk ∈ pubkeys, pk.length = 33) →
    read_multisig_keys (pre ++ ((pubkeys.map (fun p => 33 :: p)).flatten ++ suf))
        pre.length pubkeys.length =
      Except.ok (pubkeys, pre.length + 34 * pubkeys.length) := by
  induction pubkeys with
  | nil => intro pre suf _; simp [read_multisig_keys]
  | cons p ps ih =>
    intro pre suf hlen
    have h33 : p.length = 33 := hlen p (List.mem_cons_self p ps)
    have hlen' : ∀ pk ∈ ps, pk.length = 33 :=
      fun pk hpk => hlen pk (List.mem_cons_of_mem p hpk)
    have hshape : (((p :: ps).map (fun q => 33 :: q)).flatten ++ suf) =
        [33] ++ (p ++ ((ps.map (fun q => 33 :: q)).flatten ++ suf)) := by
      simp
    rw [hshape]
    simp only [List.length_cons, read_multisig_keys]
    have hpush := read_op_push_at pre (p ++ ((ps.map (fun q => 33 :: q)).flatten ++ suf))
      (n := 33) (by omega)
    rw [show op_push_bytes 33 = [33] from rfl] at hpush
    rw [hpush, ok_bind]
    simp only [List.length_singleton]
    rw [if_neg (by omega)]
    have hrec := ih (pre ++ (33 :: p)) suf hlen'
    have hlenpre : (pre ++ (33 :: p)).length = pre.length + 1 + 33 := by
      simp [h33]
    rw [hlenpre] at hrec
    have hshape2 : (pre ++ (33 :: p)) ++ ((ps.map (fun q => 33 :: q)).flatten ++ suf) =
        pre ++ ([33] ++ (p ++ ((ps.map (fun q => 33 :: q)).flatten ++ suf))) := by
      simp
    rw [hshape2] at hrec
    rw [hrec, ok_bind]
    have hslice : slice (pre ++ ([33] ++ (p ++ ((ps.map (fun q => 33 :: q)).flatten ++ suf))))
        (pre.length + 1) (pre.length + 1 + 33) = p := by
      have h := slice_mid (pre ++ [33]) p ((ps.map (fun q => 33 :: q)).flatten ++ suf)
      simp only [List.append_assoc, List.length_append, List.length_cons,
        List.length_nil, h33] at h ⊢
      convert h using 2
    rw [hslice]
    simp only [Except.ok.injEq, Prod.mk.injEq, true_and]
    omega
theorem read_built_multisig (pubkeys : List (List Nat)) (m : Nat)
    (h1 : 1 ≤ m) (h2 : m ≤ pubkeys.length) (h3 : pubkeys.length ≤ 15)
    (hlen : ∀ pk ∈ pubkeys, pk.length = 33) :
    read_output_script_multisig ([0x50 + m] ++ (pubkeys.map (fun p => 33 :: p)).flatten
        ++ [0x50 + pubkeys.length, 0xAE]) = Except.ok (pubkeys, m) := by
  set J := (pubkeys.map (fun p => 33 :: p)).flatten with hJ
  set n := pubkeys.length with hn
  have hJlen : J.length = 34 * n := flatten_keys_length pubkeys hlen
  have hslen : ([0x50 + m] ++ J ++ [0x50 + n, 0xAE]).length = 34 * n + 3 := by
    simp [hJlen]
  have hA : ([0x50 + m] ++ J).length = 34 * n + 1 := by
    simp [hJlen]
  unfold read_output_script_multisig
  have hlast : idx ([0x50 + m] ++ J ++ [0x50 + n, 0xAE])
      (([0x50 + m] ++ J ++ [0x50 + n, 0xAE]).length - 1) = Except.ok 0xAE := by
    have h := idx_pre ([0x50 + m] ++ J) [0x50 + n, 0xAE] 1
    rw [show (([0x50 + m] ++ J ++ [0x50 + n, 0xAE]).length - 1) =
      ([0x50 + m] ++ J).length + 1 by rw [hslen, hA]; omega]
    rw [h]
    rfl
  rw [hlast, ok_bind]
  rw [if_neg (by omega)]
  have hfirst : idx ([0x50 + m] ++ J ++ [0x50 + n, 0xAE]) 0 = Except.ok (0x50 + m) := by
    simp [idx]
  rw [hfirst, ok_bind]
  have hnb : idx ([0x50 + m] ++ J ++ [0x50 + n, 0xAE])
      (([0x50 + m] ++ J ++ [0x50 + n, 0xAE]).length - 2) = Except.ok (0x50 + n) := by
    have h := idx_pre0 ([0x50 + m] ++ J) (0x50 + n) [0xAE]
    rw [show (([0x50 + m] ++ J ++ [0x50 + n, 0xAE]).length - 2) =
      ([0x50 + m] ++ J).length by rw [hslen, hA]; omega]
    exact h
  rw [hnb, ok_bind]
  simp only [show (0x50 + n - 0x50 : Nat) = n from by omega,
    show (0x50 + m - 0x50 : Nat) = m from by omega]
  rw [if_neg (by push_neg; omega)]
  rw [if_neg (by omega)]
  have hkeys := read_multisig_keys_at pubkeys [0x50 + m] [0x50 + n, 0xAE] hlen
  simp only [List.length_singleton] at hkeys
  rw [show ([0x50 + m] ++ J ++ [0x50 + n, 0xAE]) =
    [0x50 + m] ++ (J ++ [0x50 + n, 0xAE]) from by simp]
  rw [← hJ, ← hn] at hkeys
  rw [hkeys, ok_bind]
  rw [if_neg (by
    simp only [List.length_singleton, List.length_append, List.length_cons,
      List.length_nil, hJlen]
    omega)]

/-! ## Claims C2 and C6 -/

/-- Claim C2: for every list of 33-byte pubkeys and every threshold `m` with
`1 ≤ m ≤ len(pubkeys) ≤ 15`, parsing the bare multisig output script recovers
the inputs exactly:
`read_output_script_multisig (output_script_multisig pubkeys m) = (pubkeys, m)`. -/
theorem C2_output_multisig_roundtrip (pubkeys : List (List Nat)) (m : Nat)
    (h1 : 1 ≤ m) (h2 : m ≤ pubkeys.length) (h3 : pubkeys.length ≤ 15)
    (hlen : ∀ pk ∈ pubkeys, pk.length = 33) :
    (output_script_multisig pubkeys m).bind read_output_script_multisig =
      Except.ok (pubkeys, m) := by
  rw [output_script_multisig_ok pubkeys m h1 h2 h3 hlen]
  exact read_built_multisig pubkeys m h1 h2 h3 hlen

/-- Witness for C2 at a concrete input: a 1-of-1 multisig. -/
theorem C2_output_multisig_roundtrip_witness :
    (output_script_multisig [List.replicate 33 5] 1).bind read_output_script_multisig =
      Except.ok ([List.replicate 33 5], 1) :=
  C2_output_multisig_roundtrip [List.replicate 33 5] 1 (by decide) (by decide)
    (by decide) (by decide)

/-- Claim C6: for every list of 33-byte pubkeys with `n = len(pubkeys)` and
every `m` with `1 ≤ m ≤ n ≤ 15`, the built bare multisig output script has
length `output_script_multisig_length pubkeys m`, which equals
`1 + n * 34 + 1 + 1`. -/
theorem C6_output_multisig_length (pubkeys : List (List Nat)) (m : Nat)
    (h1 : 1 ≤ m) (h2 : m ≤ pubkeys.length) (h3 : pubkeys.length ≤ 15)
    (hlen : ∀ pk ∈ pubkeys, pk.length = 33) :
    ∃ w, output_script_multisig pubkeys m = Except.ok w
      ∧ w.length = output_script_multisig_length pubkeys m
      ∧ output_script_multisig_length pubkeys m = 1 + pubkeys.length * 34 + 1 + 1 := by
  refine ⟨_, output_script_multisig_ok pubkeys m h1 h2 h3 hlen, ?_, ?_⟩
  · simp [output_script_multisig_length, flatten_keys_length pubkeys hlen]
    ring
  · rfl

/-- Witness for C6 at a concrete input: a 1-of-1 multisig (37 bytes). -/
theorem C6_output_multisig_length_witness :
    ∃ w, output_script_multisig [List.replicate 33 5] 1 = Except.ok w
      ∧ w.length = output_script_multisig_length [List.replicate 33 5] 1
      ∧ output_script_multisig_length [List.replicate 33 5] 1 = 1 + 1 * 34 + 1 + 1 :=
  C6_output_multisig_length [List.replicate 33 5] 1 (by decide) (by decide)
    (by decide) (by decide)

/-! ## Claim C3 -/

/-- Claim C3 counterexample: the empty coordinator string passes the code's
validation (`len("") = 0 ≤ 18`, the character check is vacuous) although it
does not match the spec regex, which requires length at least 1. -/
theorem C3_coordinator_counterexample :
    authorize_coinjoin_coordinator_check [] = Except.ok ()
      ∧ ¬ coordinator_matches_regex [] := by
  constructor
  · decide
  · decide

/-- Claim C3 (amended): `authorize_coinjoin` passes its coordinator
validation if and only if the coordinator has length at most 18 and every
character lies in the printable-ASCII range 0x20..0x7E — i.e. it matches the
regex stated with repetition bounds 0 and 18, the empty string included; any
other coordinator is rejected with `DataError` before any UI prompt. -/
theorem C3_coordinator_amended (coordinator : List Nat) :
    authorize_coinjoin_coordinator_check coordinator =
      (if coordinator.length ≤ 18 ∧ ∀ x ∈ coordinator, 0x20 ≤ x ∧ x ≤ 0x7E
       then Except.ok ()
       else Except.error (Err.dataError "Invalid coordinator name.")) := by
  unfold authorize_coinjoin_coordinator_check MAX_COORDINATOR_LEN
  by_cases h : coordinator.length ≤ 18 ∧ ∀ x ∈ coordinator, 0x20 ≤ x ∧ x ≤ 0x7E
  · rw [if_pos h, if_neg]
    simp only [List.any_eq_true, Bool.or_eq_true, decide_eq_true_eq, not_or, not_exists,
      not_and]
    constructor
    · omega
    · intro x hx
      have hh := h.2 x hx
      omega
  · rw [if_neg h, if_pos]
    simp only [List.any_eq_true, Bool.or_eq_true, decide_eq_true_eq]
    by_cases hlen : coordinator.length ≤ 18
    · right
      push_neg at h
      obtain ⟨x, hx, hxr⟩ := h hlen
      exact ⟨x, hx, by omega⟩
    · left; omega

/-! ## Claim C5 -/

/-- Claim C5: `bip143_derive_script_code` returns the bare multisig output
script when the public-key list has more than one element; otherwise, for
script types SPENDWITNESS, SPENDP2SHWITNESS, SPENDADDRESS and EXTERNAL it
returns the P2PKH output script of the coin hash of `public_keys[0]` (stated
for a well-formed compressed key and a 20-byte hash, which is what the
`ensure` checks in `ecdsa_hash_pubkey` and `output_script_p2pkh` demand);
any other combination fails with the unknown-script-type `DataError`. -/
theorem C5_bip143_script_code :
    (∀ (txi : TxInputType) (public_keys : List (List Nat)) (threshold : Nat)
        (coin : CoinInfo), public_keys.length > 1 →
      bip143_derive_script_code txi public_keys threshold coin =
        output_script_multisig public_keys threshold)
    ∧ (∀ (txi : TxInputType) (pk : List Nat) (threshold : Nat) (coin : CoinInfo)
        (b0 : Nat),
        (txi.script_type = InputScriptType.SPENDWITNESS
          ∨ txi.script_type = InputScriptType.SPENDP2SHWITNESS
          ∨ txi.script_type = InputScriptType.SPENDADDRESS
          ∨ txi.script_type = InputScriptType.EXTERNAL) →
        pk.length = 33 → pk[0]? = some b0 → b0 ≠ 0x04 → b0 ≠ 0x00 →
        (coin.script_hash pk).length = 20 →
        bip143_derive_script_code txi [pk] threshold coin =
          Except.ok ([0x76, 0xA9, 0x14] ++ coin.script_hash pk ++ [0x88, 0xAC]))
    ∧ (∀ (txi : TxInputType) (public_keys : List (List Nat)) (threshold : Nat)
        (coin : CoinInfo), public_keys.length ≤ 1 →
        ¬(txi.script_type = InputScriptType.SPENDWITNESS
          ∨ txi.script_type = InputScriptType.SPENDP2SHWITNESS
          ∨ txi.script_type = InputScriptType.SPENDADDRESS
          ∨ txi.script_type = InputScriptType.EXTERNAL) →
        bip143_derive_script_code txi public_keys threshold coin =
          Except.error (Err.dataError "Unknown input script type for bip143 script code")) := by
  refine ⟨?_, ?_, ?_⟩
  · intro txi public_keys threshold coin hgt
    unfold bip143_derive_script_code
    rw [if_pos hgt]
  · intro txi pk threshold coin b0 hst hlen hb0 hb4 hbz hhash
    unfold bip143_derive_script_code
    rw [if_neg (by simp)]
    rw [if_pos hst]
    have hidx : idx [pk] 0 = Except.ok pk := rfl
    rw [hidx, ok_bind]
    unfold ecdsa_hash_pubkey
    rw [show idx pk 0 = Except.ok b0 from by simp [idx, hb0], ok_bind]
    rw [if_neg hb4, if_neg hbz, if_pos hlen, ok_bind]
    unfold output_script_p2pkh
    rw [if_pos hhash]
  · intro txi public_keys threshold coin hle hnot
    unfold bip143_derive_script_code
    rw [if_neg (by omega)]
    rw [if_neg hnot]

/-- Witness for C5 at concrete inputs: the single-key SPENDWITNESS branch. -/
theorem C5_bip143_script_code_witness :
    bip143_derive_script_code ⟨InputScriptType.SPENDWITNESS⟩ [2 :: List.replicate 32 7] 1
        ⟨false, fun _ => List.replicate 20 3⟩ =
      Except.ok ([0x76, 0xA9, 0x14] ++ List.replicate 20 3 ++ [0x88, 0xAC]) :=
  C5_bip143_script_code.2.1 ⟨InputScriptType.SPENDWITNESS⟩ (2 :: List.replicate 32 7) 1
    ⟨false, fun _ => List.replicate 20 3⟩ 2 (Or.inl rfl) (by decide) rfl
    (by decide) (by decide) (by decide)

/-! ## Multisig builder slot lemmas -/

theorem ims_slot_filled (bo : Bool) (ms : MultisigRedeemScriptType) (sig : List Nat)
    (i ht : Nat) (coin : CoinInfo) (slot : List Nat)
    (hidx : idx ms.signatures i = Except.ok slot) (hl : slot.length > 0) :
    input_script_multisig bo ms sig i ht coin =
      Except.error (Err.dataError "Invalid multisig parameters") := by
  unfold input_script_multisig
  rw [hidx, ok_bind, if_pos hl]

theorem ims_post (bo : Bool) (ms : MultisigRedeemScriptType) (sig : List Nat)
    (i ht : Nat) (coin : CoinInfo) (w : List Nat) (post : List (List Nat))
    (h : input_script_multisig bo ms sig i ht coin = Except.ok (w, post)) :
    post = ms.signatures.set i sig := by
  unfold input_script_multisig at h
  cases hidx : idx ms.signatures i with
  | error e => rw [hidx, error_bind] at h; cases h
  | ok slot =>
    rw [hidx, ok_bind] at h
    by_cases hl : slot.length > 0
    · rw [if_pos hl] at h; cases h
    · rw [if_neg hl] at h
      dsimp only at h
      cases hw : write_output_script_multisig [] (multisig_get_pubkeys ms) ms.m with
      | error e => rw [hw, error_bind] at h; cases h
      | ok redeem =>
        rw [hw, ok_bind] at h
        have := (Except.ok.injEq _ _).mp h
        exact (Prod.mk.injEq _ _ _ _).mp this |>.2 |>.symm

theorem wp2wsh_slot_filled (ms : MultisigRedeemScriptType) (sig : List Nat)
    (i ht : Nat) (slot : List Nat)
    (hidx : idx (stretched_signatures ms) i = Except.ok slot) (hl : slot ≠ []) :
    witness_p2wsh ms sig i ht =
      Except.error (Err.dataError "Invalid multisig parameters") := by
  unfold witness_p2wsh
  rw [hidx, ok_bind, if_pos (by simpa using hl)]

theorem wp2wsh_post (ms : MultisigRedeemScriptType) (sig : List Nat)
    (i ht : Nat) (w : List Nat) (post : List (List Nat))
    (h : witness_p2wsh ms sig i ht = Except.ok (w, post)) :
    post = ms.signatures := by
  unfold witness_p2wsh at h
  cases hidx : idx (stretched_signatures ms) i with
  | error e => rw [hidx, error_bind] at h; cases h
  | ok slot =>
    rw [hidx, ok_bind] at h
    by_cases hl : slot.length ≠ 0
    · rw [if_pos hl] at h; cases h
    · rw [if_neg hl] at h
      dsimp only at h
      cases hw : write_output_script_multisig [] (multisig_get_pubkeys ms) ms.m with
      | error e => rw [hw, error_bind] at h; cases h
      | ok redeem =>
        rw [hw, ok_bind] at h
        have := (Except.ok.injEq _ _).mp h
        exact (Prod.mk.injEq _ _ _ _).mp this |>.2 |>.symm

/-! ## Claims C8 and C9 -/

/-- Claim C8: if the signature slot at `signature_index` is already non-empty
then `input_script_multisig` (checking `multisig.signatures` directly) and
`witness_p2wsh` (checking the stretched slot list) fail with the
invalid-multisig-parameters `DataError` before producing any script; on
success `input_script_multisig` fills exactly the slot at the given index
(the post-state of `multisig.signatures` is `set signature_index signature`). -/
theorem C8_filled_slot_rejected :
    (∀ (bo : Bool) (ms : MultisigRedeemScriptType) (sig : List Nat) (i ht : Nat)
        (coin : CoinInfo) (slot : List Nat),
      idx ms.signatures i = Except.ok slot → slot.length > 0 →
      input_script_multisig bo ms sig i ht coin =
        Except.error (Err.dataError "Invalid multisig parameters"))
    ∧ (∀ (ms : MultisigRedeemScriptType) (sig : List Nat) (i ht : Nat)
        (slot : List Nat),
        idx (stretched_signatures ms) i = Except.ok slot → slot ≠ [] →
        witness_p2wsh ms sig i ht =
          Except.error (Err.dataError "Invalid multisig parameters"))
    ∧ (∀ (bo : Bool) (ms : MultisigRedeemScriptType) (sig : List Nat) (i ht : Nat)
        (coin : CoinInfo) (w : List Nat) (post : List (List Nat)),
        input_script_multisig bo ms sig i ht coin = Except.ok (w, post) →
        post = ms.signatures.set i sig) :=
  ⟨ims_slot_filled, wp2wsh_slot_filled, ims_post⟩

/-- Witness for C8 at concrete inputs: a filled slot is rejected by both
builders, and a successful call fills exactly the requested slot. -/
theorem C8_filled_slot_rejected_witness :
    input_script_multisig true ⟨[List.replicate 33 2], 1, [[1]]⟩ [5] 0 1
        ⟨false, fun _ => []⟩ =
      Except.error (Err.dataError "Invalid multisig parameters")
    ∧ witness_p2wsh ⟨[List.replicate 33 2], 1, [[1]]⟩ [5] 0 1 =
      Except.error (Err.dataError "Invalid multisig parameters")
    ∧ ([[5]] : List (List Nat)) = ([[]] : List (List Nat)).set 0 [5] :=
  ⟨C8_filled_slot_rejected.1 true ⟨[List.replicate 33 2], 1, [[1]]⟩ [5] 0 1
      ⟨false, fun _ => []⟩ [1] rfl (by decide),
   C8_filled_slot_rejected.2.1 ⟨[List.replicate 33 2], 1, [[1]]⟩ [5] 0 1 [1]
      rfl (by decide),
   C8_filled_slot_rejected.2.2 true ⟨[List.replicate 33 2], 1, [[]]⟩ [5] 0 1
      ⟨false, fun _ => []⟩ ([0, 2, 5, 1, 37, 81, 33] ++ List.replicate 33 2 ++ [81, 174])
      [[5]] (by decide)⟩

/-- Claim C9: `witness_p2wsh` never mutates the caller's multisig structure
(after a successful call the post-state of `multisig.signatures` equals its
value before the call), whereas `input_script_multisig` writes the provided
signature into `multisig.signatures[signature_index]` in place. -/
theorem C9_witness_p2wsh_no_mutation :
    (∀ (ms : MultisigRedeemScriptType) (sig : List Nat) (i ht : Nat)
        (w : List Nat) (post : List (List Nat)),
      witness_p2wsh ms sig i ht = Except.ok (w, post) → post = ms.signatures)
    ∧ (∀ (bo : Bool) (ms : MultisigRedeemScriptType) (sig : List Nat) (i ht : Nat)
        (coin : CoinInfo) (w : List Nat) (post : List (List Nat)),
        input_script_multisig bo ms sig i ht coin = Except.ok (w, post) →
        post = ms.signatures.set i sig) :=
  ⟨wp2wsh_post, ims_post⟩

/-- Witness for C9 at concrete inputs. -/
theorem C9_witness_p2wsh_no_mutation_witness :
    ([[]] : List (List Nat)) =
      (⟨[List.replicate 33 2], 1, [[]]⟩ : MultisigRedeemScriptType).signatures
    ∧ ([[5]] : List (List Nat)) = ([[]] : List (List Nat)).set 0 [5] :=
  ⟨C9_witness_p2wsh_no_mutation.1 ⟨[List.replicate 33 2], 1, [[]]⟩ [5] 0 1
      ([3, 0, 2, 5, 1, 37, 81, 33] ++ List.replicate 33 2 ++ [81, 174]) [[]]
      (by decide),
   C9_witness_p2wsh_no_mutation.2 true ⟨[List.replicate 33 2], 1, [[]]⟩ [5] 0 1
      ⟨false, fun _ => []⟩ ([0, 2, 5, 1, 37, 81, 33] ++ List.replicate 33 2 ++ [81, 174])
      [[5]] (by decide)⟩


/-! ## Claim C7 -/

/-- Claim C7 counterexample: the P2WSH witness produced by `witness_p2wsh`
for a 1-of-1 multisig with one signature begins with the item-count varint
byte `3`, not with `0x00`: the OP_FALSE is the second byte, after the
count. -/
theorem C7_opfalse_counterexample :
    (witness_p2wsh ⟨[List.replicate 33 2], 1, [[]]⟩ [5] 0 1).map (fun r => r.1.head?) =
      Except.ok (some 3)
    ∧ some (3 : Nat) ≠ some 0 := by
  constructor
  · decide
  · decide

/-- Claim C7 (amended): every bare-multisig scriptSig produced by
`input_script_multisig` for a non-Decred coin begins with an explicit
OP_FALSE (0x00) byte, and every witness produced by `witness_p2wsh` carries
OP_FALSE as its first stack item: the byte at index 1, right after the
single-byte item-count varint, is 0x00 (stated under the spec's invariant
that the slot list is no longer than the pubkey list). -/
theorem C7_opfalse_structure :
    (∀ (bo : Bool) (ms : MultisigRedeemScriptType) (sig : List Nat) (i ht : Nat)
        (coin : CoinInfo) (w : List Nat) (post : List (List Nat)),
      coin.decred = false →
      input_script_multisig bo ms sig i ht coin = Except.ok (w, post) →
      w.head? = some 0)
    ∧ (∀ (ms : MultisigRedeemScriptType) (sig : List Nat) (i ht : Nat)
        (w : List Nat) (post : List (List Nat)),
        ms.signatures.length ≤ multisig_get_pubkey_count ms →
        witness_p2wsh ms sig i ht = Except.ok (w, post) →
        w[1]? = some 0) := by
  constructor
  · intro bo ms sig i ht coin w post hdec h
    unfold input_script_multisig at h
    cases hidx : idx ms.signatures i with
    | error e => rw [hidx, error_bind] at h; cases h
    | ok slot =>
      rw [hidx, ok_bind] at h
      by_cases hl : slot.length > 0
      · rw [if_pos hl] at h; cases h
      · rw [if_neg hl] at h
        dsimp only at h
        rw [hdec] at h
        cases hw : write_output_script_multisig [] (multisig_get_pubkeys ms) ms.m with
        | error e => rw [hw, error_bind] at h; cases h
        | ok redeem =>
          rw [hw, ok_bind] at h
          have hww := ((Except.ok.injEq _ _).mp h)
          have hw1 : ((if (bo || !false) = true then [0] else []) ++
              (List.map (fun s => if s.length ≠ 0 then append_signature [] s ht else [])
                (ms.signatures.set i sig)).flatten ++
              op_push_bytes (output_script_multisig_length (multisig_get_pubkeys ms) ms.m)
              ++ redeem) = w := congrArg Prod.fst hww
          rw [show (bo || !false) = true from by simp] at hw1
          rw [if_pos rfl] at hw1
          rw [← hw1]
          rfl
  · intro ms sig i ht w post hle h
    unfold witness_p2wsh at h
    cases hidx : idx (stretched_signatures ms) i with
    | error e => rw [hidx, error_bind] at h; cases h
    | ok slot =>
      rw [hidx, ok_bind] at h
      by_cases hl : slot.length ≠ 0
      · rw [if_pos hl] at h; cases h
      · rw [if_neg hl] at h
        dsimp only at h
        cases hw : write_output_script_multisig [] (multisig_get_pubkeys ms) ms.m with
        | error e => rw [hw, error_bind] at h; cases h
        | ok redeem =>
          rw [hw, ok_bind] at h
          have hww := (Except.ok.injEq _ _).mp h
          have hw1 := congrArg Prod.fst hww
          dsimp only at hw1
          have hcount : (multisig_get_pubkeys ms).length ≤ 15 := by
            by_cases hbad : ((multisig_get_pubkeys ms).length < 1
                ∨ (multisig_get_pubkeys ms).length > 15 ∨ ms.m < 1 ∨ ms.m > 15
                ∨ ms.m > (multisig_get_pubkeys ms).length)
            · unfold write_output_script_multisig at hw
              rw [if_pos hbad] at hw
              cases hw
            · push_neg at hbad
              omega
          have hstretch : (stretched_signatures ms).length = ms.pubkeys.length := by
            unfold stretched_signatures multisig_get_pubkey_count
            simp only [List.length_append, List.length_replicate]
            have hle' := hle
            unfold multisig_get_pubkey_count at hle'
            omega
          have hfl : ((((stretched_signatures ms).set i sig).filter
              (fun s => s.length != 0)).length) ≤ 15 := by
            refine le_trans (List.length_filter_le _ _) ?_
            rw [List.length_set, hstretch]
            exact hcount
          rw [show varint_bytes (1 + (((stretched_signatures ms).set i sig).filter
              (fun s => s.length != 0)).length + 1) =
            [1 + (((stretched_signatures ms).set i sig).filter
              (fun s => s.length != 0)).length + 1] from by
            unfold varint_bytes
            rw [if_pos (by omega)]] at hw1
          rw [show varint_bytes 0 = [0] from rfl] at hw1
          rw [← hw1]
          simp only [List.cons_append, List.nil_append, List.getElem?_cons_succ,
            List.getElem?_cons_zero]

/-- Witness for the amended C7 at concrete inputs. -/
theorem C7_opfalse_structure_witness :
    (([0, 2, 5, 1, 37, 81, 33] ++ List.replicate 33 2 ++ [81, 174] : List Nat)).head? =
      some 0
    ∧ (([3, 0, 2, 5, 1, 37, 81, 33] ++ List.replicate 33 2 ++ [81, 174] : List Nat))[1]? =
      some 0 :=
  ⟨C7_opfalse_structure.1 true ⟨[List.replicate 33 2], 1, [[]]⟩ [5] 0 1
      ⟨false, fun _ => []⟩ ([0, 2, 5, 1, 37, 81, 33] ++ List.replicate 33 2 ++ [81, 174])
      [[5]] rfl (by decide),
   C7_opfalse_structure.2 ⟨[List.replicate 33 2], 1, [[]]⟩ [5] 0 1
      ([3, 0, 2, 5, 1, 37, 81, 33] ++ List.replicate 33 2 ++ [81, 174]) [[]]
      (by decide) (by decide)⟩


/-! ## Claim C10 -/

/-- Claim C10: `read_witness_p2wsh` does not validate the declared
stack-item count against the actual content: for every witness whose leading
varint byte is `N ≤ 2`, whose next byte is 0x00, and whose remainder is a
single varint-prefixed item consuming exactly the rest of the buffer, the
parse succeeds with an empty signature list, regardless of whether `N` is
0, 1 or 2 (the loop runs `N - 2` times, which is zero for all three). -/
theorem C10_p2wsh_count_not_validated (N : Nat) (item : List Nat)
    (hN : N ≤ 2) (hitem : item.length ≤ 0xFFFFFFFF) :
    read_witness_p2wsh ([N, 0x00] ++ varint_bytes item.length ++ item) =
      Except.ok (item, []) := by
  unfold read_witness_p2wsh
  have h0 : read_bitcoin_varint ([N, 0x00] ++ varint_bytes item.length ++ item) 0 =
      Except.ok (N, 1) := by
    unfold read_bitcoin_varint
    rw [show idx ([N, 0x00] ++ varint_bytes item.length ++ item) 0 = Except.ok N from by
      simp [idx], ok_bind]
    rw [if_pos (by omega), pure_eq_ok]
  rw [h0, ok_bind]
  have hidx1 : idx ([N, 0x00] ++ varint_bytes item.length ++ item) 1 = Except.ok 0 := by
    simp [idx]
  have hloop : read_p2wsh_signatures ([N, 0x00] ++ varint_bytes item.length ++ item)
      (1 + 1) (N - 2) = Except.ok ([], 1 + 1) := by
    rw [show N - 2 = 0 from by omega]
    rfl
  have h2 : read_bitcoin_varint ([N, 0x00] ++ varint_bytes item.length ++ item) (1 + 1) =
      Except.ok (item.length, 2 + (varint_bytes item.length).length) := by
    have h := read_varint_at [N, 0x00] item hitem
    simpa using h
  simp only [hidx1, ok_bind, hloop, h2]
  rw [if_neg (by omega)]
  rw [if_neg (by simp [List.length_append]; omega)]
  have hsl : slice ([N, 0x00] ++ varint_bytes item.length ++ item)
      (2 + (varint_bytes item.length).length)
      (2 + (varint_bytes item.length).length + item.length) = item := by
    have h := slice_mid ([N, 0x00] ++ varint_bytes item.length) item []
    simp only [List.append_nil, List.append_assoc, List.length_append, List.length_cons,
      List.length_nil] at h ⊢
    convert h using 2
  rw [hsl]

/-- Witness for C10 at concrete inputs: the same one-item body parses with
declared counts 0 and 2 alike. -/
theorem C10_p2wsh_count_not_validated_witness :
    read_witness_p2wsh ([0, 0x00] ++ varint_bytes 1 ++ [7]) = Except.ok ([7], [])
    ∧ read_witness_p2wsh ([2, 0x00] ++ varint_bytes 1 ++ [7]) = Except.ok ([7], []) :=
  ⟨C10_p2wsh_count_not_validated 0 [7] (by decide) (by decide),
   C10_p2wsh_count_not_validated 2 [7] (by decide) (by decide)⟩


/-! ## Parser trailing-data lemmas -/

theorem read_op_push_mono {s : List Nat} {off : Nat} {r : Nat × Nat} (t : List Nat)
    (h : read_op_push s off = Except.ok r) : read_op_push (s ++ t) off = Except.ok r := by
  unfold read_op_push at h ⊢
  cases hp : idx s off with
  | error e => rw [hp, error_bind] at h; cases h
  | ok p =>
    rw [hp, ok_bind] at h
    rw [idx_mono t hp, ok_bind]
    by_cases h1 : p < 0x4C
    · rw [if_pos h1] at h ⊢; exact h
    · rw [if_neg h1] at h ⊢
      by_cases h2 : p = 0x4C
      · rw [if_pos h2] at h ⊢
        cases hb : idx s (off + 1) with
        | error e => rw [hb, error_bind] at h; cases h
        | ok b0 => rw [hb, ok_bind] at h; rw [idx_mono t hb, ok_bind]; exact h
      · rw [if_neg h2] at h ⊢
        by_cases h3 : p = 0x4D
        · rw [if_pos h3] at h ⊢
          cases hb : idx s (off + 1) with
          | error e => rw [hb, error_bind] at h; cases h
          | ok b0 =>
            rw [hb, ok_bind] at h; rw [idx_mono t hb, ok_bind]
            cases hb1 : idx s (off + 1 + 1) with
            | error e => rw [hb1, error_bind] at h; cases h
            | ok b1 => rw [hb1, ok_bind] at h; rw [idx_mono t hb1, ok_bind]; exact h
        · rw [if_neg h3] at h ⊢
          by_cases h4 : p = 0x4E
          · rw [if_pos h4] at h ⊢
            cases hb : idx s (off + 1) with
            | error e => rw [hb, error_bind] at h; cases h
            | ok b0 =>
              rw [hb, ok_bind] at h; rw [idx_mono t hb, ok_bind]
              cases hb1 : idx s (off + 1 + 1) with
              | error e => rw [hb1, error_bind] at h; cases h
              | ok b1 =>
                rw [hb1, ok_bind] at h; rw [idx_mono t hb1, ok_bind]
                cases hb2 : idx s (off + 1 + 2) with
                | error e => rw [hb2, error_bind] at h; cases h
                | ok b2 =>
                  rw [hb2, ok_bind] at h; rw [idx_mono t hb2, ok_bind]
                  cases hb3 : idx s (off + 1 + 3) with
                  | error e => rw [hb3, error_bind] at h; cases h
                  | ok b3 =>
                    rw [hb3, ok_bind] at h; rw [idx_mono t hb3, ok_bind]; exact h
          · rw [if_neg h4] at h ⊢; cases h

theorem read_varint_mono {s : List Nat} {off : Nat} {r : Nat × Nat} (t : List Nat)
    (h : read_bitcoin_varint s off = Except.ok r) :
    read_bitcoin_varint (s ++ t) off = Except.ok r := by
  unfold read_bitcoin_varint at h ⊢
  cases hp : idx s off with
  | error e => rw [hp, error_bind] at h; cases h
  | ok p =>
    rw [hp, ok_bind] at h
    rw [idx_mono t hp, ok_bind]
    by_cases h1 : p < 253
    · rw [if_pos h1] at h ⊢; exact h
    · rw [if_neg h1] at h ⊢
      by_cases h2 : p = 253
      · rw [if_pos h2] at h ⊢
        cases hb : idx s (off + 1) with
        | error e => rw [hb, error_bind] at h; cases h
        | ok b0 =>
          rw [hb, ok_bind] at h; rw [idx_mono t hb, ok_bind]
          cases hb1 : idx s (off + 1 + 1) with
          | error e => rw [hb1, error_bind] at h; cases h
          | ok b1 => rw [hb1, ok_bind] at h; rw [idx_mono t hb1, ok_bind]; exact h
      · rw [if_neg h2] at h ⊢
        by_cases h3 : p = 254
        · rw [if_pos h3] at h ⊢
          cases hb : idx s (off + 1) with
          | error e => rw [hb, error_bind] at h; cases h
          | ok b0 =>
            rw [hb, ok_bind] at h; rw [idx_mono t hb, ok_bind]
            cases hb1 : idx s (off + 1 + 1) with
            | error e => rw [hb1, error_bind] at h; cases h
            | ok b1 =>
              rw [hb1, ok_bind] at h; rw [idx_mono t hb1, ok_bind]
              cases hb2 : idx s (off + 1 + 2) with
              | error e => rw [hb2, error_bind] at h; cases h
              | ok b2 =>
                rw [hb2, ok_bind] at h; rw [idx_mono t hb2, ok_bind]
                cases hb3 : idx s (off + 1 + 3) with
                | error e => rw [hb3, error_bind] at h; cases h
                | ok b3 =>
                  rw [hb3, ok_bind] at h; rw [idx_mono t hb3, ok_bind]; exact h
        · rw [if_neg h3] at h ⊢; cases h

theorem read_op_push_adv {s : List Nat} {off n off' : Nat}
    (h : read_op_push s off = Except.ok (n, off')) :
    off + 1 ≤ off' ∧ off' ≤ off + 5 := by
  unfold read_op_push at h
  cases hp : idx s off with
  | error e => rw [hp, error_bind] at h; cases h
  | ok p =>
    rw [hp, ok_bind] at h
    by_cases h1 : p < 0x4C
    · rw [if_pos h1, pure_eq_ok] at h
      have := ((Except.ok.injEq _ _).mp h)
      have h2 := (Prod.mk.injEq _ _ _ _).mp this
      omega
    · rw [if_neg h1] at h
      by_cases h2 : p = 0x4C
      · rw [if_pos h2] at h
        cases hb : idx s (off + 1) with
        | error e => rw [hb, error_bind] at h; cases h
        | ok b0 =>
          rw [hb, ok_bind, pure_eq_ok] at h
          have := (Prod.mk.injEq _ _ _ _).mp ((Except.ok.injEq _ _).mp h)
          omega
      · rw [if_neg h2] at h
        by_cases h3 : p = 0x4D
        · rw [if_pos h3] at h
          cases hb : idx s (off + 1) with
          | error e => rw [hb, error_bind] at h; cases h
          | ok b0 =>
            rw [hb, ok_bind] at h
            cases hb1 : idx s (off + 1 + 1) with
            | error e => rw [hb1, error_bind] at h; cases h
            | ok b1 =>
              rw [hb1, ok_bind, pure_eq_ok] at h
              have := (Prod.mk.injEq _ _ _ _).mp ((Except.ok.injEq _ _).mp h)
              omega
        · rw [if_neg h3] at h
          by_cases h4 : p = 0x4E
          · rw [if_pos h4] at h
            cases hb : idx s (off + 1) with
            | error e => rw [hb, error_bind] at h; cases h
            | ok b0 =>
              rw [hb, ok_bind] at h
              cases hb1 : idx s (off + 1 + 1) with
              | error e => rw [hb1, error_bind] at h; cases h
              | ok b1 =>
                rw [hb1, ok_bind] at h
                cases hb2 : idx s (off + 1 + 2) with
                | error e => rw [hb2, error_bind] at h; cases h
                | ok b2 =>
                  rw [hb2, ok_bind] at h
                  cases hb3 : idx s (off + 1 + 3) with
                  | error e => rw [hb3, error_bind] at h; cases h
                  | ok b3 =>
                    rw [hb3, ok_bind, pure_eq_ok] at h
                    have := (Prod.mk.injEq _ _ _ _).mp ((Except.ok.injEq _ _).mp h)
                    omega
          · rw [if_neg h4] at h; cases h

theorem p2pkh_ext {s : List Nat} {r : List (List Nat) × List (List Nat × Nat)}
    (t : List Nat) (hr : read_input_script_p2pkh s = Except.ok r) (ht : t ≠ []) :
    read_input_script_p2pkh (s ++ t) = Except.error (Err.dataError "Invalid scriptSig.") := by
  have htlen : 0 < t.length := List.length_pos.mpr ht
  unfold read_input_script_p2pkh at hr ⊢
  cases h0 : read_op_push s 0 with
  | error e => rw [h0, error_bind] at hr; cases hr
  | ok p =>
    obtain ⟨n, off⟩ := p
    rw [h0, ok_bind] at hr
    rw [read_op_push_mono t h0, ok_bind]
    dsimp only at hr ⊢
    cases hh : idx s (off + n - 1) with
    | error e => rw [hh, error_bind] at hr; cases hr
    | ok sh =>
      rw [hh, ok_bind] at hr
      rw [idx_mono t hh, ok_bind]
      cases h2 : read_op_push s (off + n) with
      | error e => rw [h2, error_bind] at hr; cases hr
      | ok p2 =>
        obtain ⟨n2, off2⟩ := p2
        rw [h2, ok_bind] at hr
        rw [read_op_push_mono t h2, ok_bind]
        by_cases hne : off2 + n2 ≠ s.length
        · rw [if_pos hne] at hr; cases hr
        · push_neg at hne
          rw [if_pos (by simp [List.length_append]; omega)]

theorem p2wpkh_ext {s : List Nat} {r : List (List Nat) × List (List Nat × Nat)}
    (t : List Nat) (hr : read_witness_p2wpkh s = Except.ok r) (ht : t ≠ []) :
    read_witness_p2wpkh (s ++ t) = Except.error (Err.dataError "Invalid witness.") := by
  have htlen : 0 < t.length := List.length_pos.mpr ht
  unfold read_witness_p2wpkh at hr ⊢
  cases hw0 : idx s 0 with
  | error e => rw [hw0, error_bind] at hr; cases hr
  | ok w0 =>
    rw [hw0, ok_bind] at hr
    rw [idx_mono t hw0, ok_bind]
    by_cases hne2 : w0 ≠ 2
    · rw [if_pos hne2] at hr; cases hr
    · rw [if_neg hne2] at hr ⊢
      cases h0 : read_bitcoin_varint s 1 with
      | error e => rw [h0, error_bind] at hr; cases hr
      | ok p =>
        obtain ⟨n, off⟩ := p
        rw [h0, ok_bind] at hr
        rw [read_varint_mono t h0, ok_bind]
        dsimp only at hr ⊢
        cases hh : idx s (off + n - 1) with
        | error e => rw [hh, error_bind] at hr; cases hr
        | ok sh =>
          rw [hh, ok_bind] at hr
          rw [idx_mono t hh, ok_bind]
          cases h2 : read_bitcoin_varint s (off + n) with
          | error e => rw [h2, error_bind] at hr; cases hr
          | ok p2 =>
            obtain ⟨n2, off2⟩ := p2
            rw [h2, ok_bind] at hr
            rw [read_varint_mono t h2, ok_bind]
            by_cases hne : off2 + n2 ≠ s.length
            · rw [if_pos hne] at hr; cases hr
            · push_neg at hne
              rw [if_pos (by simp [List.length_append]; omega)]

theorem read_p2wsh_signatures_mono {s : List Nat} (t : List Nat) :
    ∀ (count off : Nat) (r : List (List Nat × Nat) × Nat),
    read_p2wsh_signatures s off count = Except.ok r →
    read_p2wsh_signatures (s ++ t) off count = Except.ok r := by
  intro count
  induction count with
  | zero => intro off r h; exact h
  | succ k ih =>
    intro off r h
    unfold read_p2wsh_signatures at h ⊢
    cases hv : read_bitcoin_varint s off with
    | error e => rw [hv, error_bind] at h; cases h
    | ok p =>
      obtain ⟨n, off'⟩ := p
      rw [hv, ok_bind] at h
      rw [read_varint_mono t hv, ok_bind]
      dsimp only at h ⊢
      cases hsh : idx s (off' + n - 1) with
      | error e => rw [hsh, error_bind] at h; cases h
      | ok sh =>
        rw [hsh, ok_bind] at h
        rw [idx_mono t hsh, ok_bind]
        rw [slice_mono t (le_of_lt (idx_lt hsh))]
        cases hrec : read_p2wsh_signatures s (off' + n) k with
        | error e => rw [hrec, error_bind] at h; cases h
        | ok pr =>
          rw [hrec, ok_bind] at h
          rw [ih _ _ hrec, ok_bind]
          exact h

theorem p2wsh_ext {s : List Nat} {r : List Nat × List (List Nat × Nat)}
    (t : List Nat) (hr : read_witness_p2wsh s = Except.ok r) (ht : t ≠ []) :
    read_witness_p2wsh (s ++ t) = Except.error (Err.dataError "Invalid witness.") := by
  have htlen : 0 < t.length := List.length_pos.mpr ht
  unfold read_witness_p2wsh at hr ⊢
  cases h0 : read_bitcoin_varint s 0 with
  | error e => rw [h0, error_bind] at hr; cases hr
  | ok p =>
    obtain ⟨item_count, off⟩ := p
    rw [h0, ok_bind] at hr
    rw [read_varint_mono t h0, ok_bind]
    dsimp only at hr ⊢
    cases hb : idx s off with
    | error e => rw [hb, error_bind] at hr; cases hr
    | ok b =>
      rw [hb, ok_bind] at hr
      rw [idx_mono t hb, ok_bind]
      by_cases hbz : b ≠ 0
      · rw [if_pos hbz] at hr; cases hr
      · rw [if_neg hbz] at hr ⊢
        cases hl : read_p2wsh_signatures s (off + 1) (item_count - 2) with
        | error e => rw [hl, error_bind] at hr; cases hr
        | ok pl =>
          obtain ⟨sigs, off'⟩ := pl
          rw [hl, ok_bind] at hr
          rw [read_p2wsh_signatures_mono t _ _ _ hl, ok_bind]
          cases h2 : read_bitcoin_varint s off' with
          | error e => rw [h2, error_bind] at hr; cases hr
          | ok p2 =>
            obtain ⟨n, off''⟩ := p2
            rw [h2, ok_bind] at hr
            rw [read_varint_mono t h2, ok_bind]
            by_cases hne : off'' + n ≠ s.length
            · rw [if_pos hne] at hr; cases hr
            · push_neg at hne
              rw [if_pos (by simp [List.length_append]; omega)]

theorem idx_total {α : Type} {l : List α} {i : Nat} (h : i < l.length) :
    ∃ v, idx l i = Except.ok v := by
  cases hg : l[i]? with
  | some v => exact ⟨v, by simp [idx, hg]⟩
  | none =>
    rw [List.getElem?_eq_none_iff] at hg
    omega

theorem read_multisig_keys_adv {s : List Nat} :
    ∀ (c off : Nat) (ks : List (List Nat)) (off' : Nat),
    read_multisig_keys s off c = Except.ok (ks, off') → off + 34 * c ≤ off' := by
  intro c
  induction c with
  | zero =>
    intro off ks off' h
    unfold read_multisig_keys at h
    have := (Prod.mk.injEq _ _ _ _).mp ((Except.ok.injEq _ _).mp h)
    omega
  | succ k ih =>
    intro off ks off' h
    unfold read_multisig_keys at h
    cases hp : read_op_push s off with
    | error e => rw [hp, error_bind] at h; cases h
    | ok p =>
      obtain ⟨n, o⟩ := p
      rw [hp, ok_bind] at h
      dsimp only at h
      have hadv := read_op_push_adv hp
      by_cases hn : n ≠ 33
      · rw [if_pos hn] at h; cases h
      · rw [if_neg hn] at h
        push_neg at hn
        subst hn
        cases hrec : read_multisig_keys s (o + 33) k with
        | error e => rw [hrec, error_bind] at h; cases h
        | ok pr =>
          obtain ⟨rest, fin⟩ := pr
          rw [hrec, ok_bind] at h
          have hfin := ih _ _ _ hrec
          have := (Prod.mk.injEq _ _ _ _).mp ((Except.ok.injEq _ _).mp h)
          omega

theorem read_multisig_keys_mono {s : List Nat} (t : List Nat) :
    ∀ (c off : Nat) (ks : List (List Nat)) (off' : Nat),
    read_multisig_keys s off c = Except.ok (ks, off') → off' ≤ s.length →
    read_multisig_keys (s ++ t) off c = Except.ok (ks, off') := by
  intro c
  induction c with
  | zero => intro off ks off' h _; exact h
  | succ k ih =>
    intro off ks off' h hle
    unfold read_multisig_keys at h ⊢
    cases hp : read_op_push s off with
    | error e => rw [hp, error_bind] at h; cases h
    | ok p =>
      obtain ⟨n, o⟩ := p
      rw [hp, ok_bind] at h
      rw [read_op_push_mono t hp, ok_bind]
      dsimp only at h ⊢
      by_cases hn : n ≠ 33
      · rw [if_pos hn] at h; cases h
      · rw [if_neg hn] at h ⊢
        push_neg at hn
        subst hn
        cases hrec : read_multisig_keys s (o + 33) k with
        | error e => rw [hrec, error_bind] at h; cases h
        | ok pr =>
          obtain ⟨rest, fin⟩ := pr
          rw [hrec, ok_bind] at h
          have hfin := read_multisig_keys_adv _ _ _ _ hrec
          have hfeq := (Prod.mk.injEq _ _ _ _).mp ((Except.ok.injEq _ _).mp h)
          rw [ih _ _ _ hrec (by omega), ok_bind]
          rw [slice_mono t (by omega)]
          exact h

theorem read_multisig_keys_split {s : List Nat} :
    ∀ (c1 c2 off : Nat) (ks : List (List Nat)) (off' : Nat),
    read_multisig_keys s off (c1 + c2) = Except.ok (ks, off') →
    ∃ ks1 offm ks2, read_multisig_keys s off c1 = Except.ok (ks1, offm)
      ∧ read_multisig_keys s offm c2 = Except.ok (ks2, off') ∧ ks = ks1 ++ ks2 := by
  intro c1
  induction c1 with
  | zero =>
    intro c2 off ks off' h
    rw [Nat.zero_add] at h
    exact ⟨[], off, ks, rfl, h, rfl⟩
  | succ k ih =>
    intro c2 off ks off' h
    rw [Nat.succ_add] at h
    unfold read_multisig_keys at h
    cases hp : read_op_push s off with
    | error e => rw [hp, error_bind] at h; cases h
    | ok p =>
      obtain ⟨n, o⟩ := p
      rw [hp, ok_bind] at h
      dsimp only at h
      by_cases hn : n ≠ 33
      · rw [if_pos hn] at h; cases h
      · rw [if_neg hn] at h
        push_neg at hn
        subst hn
        cases hrec : read_multisig_keys s (o + 33) (k + c2) with
        | error e => rw [hrec, error_bind] at h; cases h
        | ok pr =>
          obtain ⟨rest, fin⟩ := pr
          rw [hrec, ok_bind] at h
          dsimp only at h
          obtain ⟨ks1, offm, ks2, hr1, hr2, hre⟩ := ih c2 _ _ _ hrec
          have hfeq := (Prod.mk.injEq _ _ _ _).mp ((Except.ok.injEq _ _).mp h)
          refine ⟨slice s o (o + 33) :: ks1, offm, ks2, ?_, ?_, ?_⟩
          · unfold read_multisig_keys
            rw [hp, ok_bind]
            dsimp only
            rw [if_neg (by omega), hr1, ok_bind]
          · rw [← hfeq.2]
            exact hr2
          · simp [← hfeq.1, hre]

theorem read_multisig_keys_succ (s : List Nat) (off k : Nat) :
    read_multisig_keys s off (k + 1) =
      (do
        let (n, offset') ← read_op_push s off
        if n ≠ 33 then Except.error (Err.dataError "Invalid multisig script")
        else do
          let (rest, final) ← read_multisig_keys s (offset' + n) k
          Except.ok (slice s offset' (offset' + n) :: rest, final)) := rfl

theorem read_multisig_keys_comp {s : List Nat} :
    ∀ (c1 c2 off : Nat) (ks1 : List (List Nat)) (offm : Nat) (e : Err),
    read_multisig_keys s off c1 = Except.ok (ks1, offm) →
    read_multisig_keys s offm c2 = Except.error e →
    read_multisig_keys s off (c1 + c2) = Except.error e := by
  intro c1
  induction c1 with
  | zero =>
    intro c2 off ks1 offm e h1 h2
    unfold read_multisig_keys at h1
    have := (Prod.mk.injEq _ _ _ _).mp ((Except.ok.injEq _ _).mp h1)
    rw [Nat.zero_add, this.2]
    exact h2
  | succ k ih =>
    intro c2 off ks1 offm e h1 h2
    rw [Nat.succ_add, read_multisig_keys_succ]
    rw [read_multisig_keys_succ] at h1
    cases hp : read_op_push s off with
    | error er => rw [hp, error_bind] at h1; cases h1
    | ok p =>
      obtain ⟨n, o⟩ := p
      rw [hp, ok_bind] at h1
      rw [ok_bind]
      dsimp only at h1 ⊢
      by_cases hn : n ≠ 33
      · rw [if_pos hn] at h1; cases h1
      · rw [if_neg hn] at h1 ⊢
        push_neg at hn
        subst hn
        cases hrec : read_multisig_keys s (o + 33) k with
        | error er => rw [hrec, error_bind] at h1; cases h1
        | ok pr =>
          obtain ⟨rest, fin⟩ := pr
          rw [hrec, ok_bind] at h1
          dsimp only at h1
          have hfeq := (Prod.mk.injEq _ _ _ _).mp ((Except.ok.injEq _ _).mp h1)
          have := ih c2 _ _ _ e hrec (by rw [hfeq.2]; exact h2)
          rw [this, error_bind]

theorem out_multisig_ext {s : List Nat} {r : List (List Nat) × Nat}
    (t : List Nat) (hr : read_output_script_multisig s = Except.ok r) (ht : t ≠ []) :
    isDataErr (read_output_script_multisig (s ++ t)) = true := by
  have htlen : 0 < t.length := List.length_pos.mpr ht
  unfold read_output_script_multisig at hr
  cases hlast : idx s (s.length - 1) with
  | error e => rw [hlast, error_bind] at hr; cases hr
  | ok lastv =>
    rw [hlast, ok_bind] at hr
    by_cases hae : lastv ≠ 0xAE
    · rw [if_pos hae] at hr; cases hr
    · rw [if_neg hae] at hr
      cases hfirst : idx s 0 with
      | error e => rw [hfirst, error_bind] at hr; cases hr
      | ok f =>
        rw [hfirst, ok_bind] at hr
        cases hnb : idx s (s.length - 2) with
        | error e => rw [hnb, error_bind] at hr; cases hr
        | ok b =>
          rw [hnb, ok_bind] at hr
          by_cases hrange : ¬(0x51 ≤ f ∧ f < 0x60) ∨ ¬(0x51 ≤ b ∧ b < 0x60)
          · rw [if_pos hrange] at hr; cases hr
          · rw [if_neg hrange] at hr
            push_neg at hrange
            obtain ⟨hf1, hb1⟩ := hrange
            dsimp only at hr
            by_cases hthr : f - 0x50 > b - 0x50
            · rw [if_pos hthr] at hr; cases hr
            · rw [if_neg hthr] at hr
              cases hloop : read_multisig_keys s 1 (b - 0x50) with
              | error e => rw [hloop, error_bind] at hr; cases hr
              | ok pl =>
                obtain ⟨pks, offf⟩ := pl
                rw [hloop, ok_bind] at hr
                dsimp only at hr
                by_cases hcons : offf + 2 ≠ s.length
                · rw [if_pos hcons] at hr; cases hr
                · push_neg at hcons
                  have hadv0 := read_multisig_keys_adv _ _ _ _ hloop
                  have hcnt1 : 1 ≤ b - 0x50 := by omega
                  have hoff35 : 35 ≤ offf := by omega
                  unfold read_output_script_multisig
                  obtain ⟨v1, hv1⟩ := idx_total
                    (l := s ++ t) (i := (s ++ t).length - 1)
                    (by simp [List.length_append]; omega)
                  rw [hv1, ok_bind]
                  by_cases hv1ae : v1 ≠ 0xAE
                  · rw [if_pos hv1ae]; rfl
                  · rw [if_neg hv1ae]
                    rw [idx_mono t hfirst, ok_bind]
                    obtain ⟨v2, hv2⟩ := idx_total
                      (l := s ++ t) (i := (s ++ t).length - 2)
                      (by simp [List.length_append]; omega)
                    rw [hv2, ok_bind]
                    by_cases hrng2 : ¬(0x51 ≤ f ∧ f < 0x60) ∨ ¬(0x51 ≤ v2 ∧ v2 < 0x60)
                    · rw [if_pos hrng2]; rfl
                    · rw [if_neg hrng2]
                      push_neg at hrng2
                      dsimp only
                      by_cases hthr2 : f - 0x50 > v2 - 0x50
                      · rw [if_pos hthr2]; rfl
                      · rw [if_neg hthr2]
                        rcases Nat.lt_trichotomy (v2 - 0x50) (b - 0x50) with hlt | heq | hgt
                        · rw [show b - 0x50 = (v2 - 0x50) + ((b - 0x50) - (v2 - 0x50))
                            from by omega] at hloop
                          obtain ⟨ks1, offm, ks2, hr1, hr2, _⟩ :=
                            read_multisig_keys_split _ _ _ _ _ hloop
                          have hadv2 := read_multisig_keys_adv _ _ _ _ hr2
                          have hoffm : offm + 34 ≤ offf := by
                            have : 1 ≤ (b - 0x50) - (v2 - 0x50) := by omega
                            omega
                          rw [read_multisig_keys_mono t _ _ _ _ hr1 (by omega), ok_bind]
                          dsimp only
                          rw [if_pos (by simp [List.length_append]; omega)]
                          rfl
                        · rw [← heq] at hloop
                          rw [read_multisig_keys_mono t _ _ _ _ hloop (by omega), ok_bind]
                          dsimp only
                          rw [if_pos (by simp [List.length_append]; omega)]
                          rfl
                        · obtain ⟨d, hd⟩ : ∃ d, v2 - 0x50 = (b - 0x50) + (d + 1) :=
                            ⟨v2 - 0x50 - (b - 0x50) - 1, by omega⟩
                          have hidxb : idx s offf = Except.ok b := by
                            rw [show offf = s.length - 2 from by omega]
                            exact hnb
                          have hpush_err : read_op_push (s ++ t) offf =
                              Except.error (Err.dataError "Invalid OP_PUSH") := by
                            unfold read_op_push
                            rw [idx_mono t hidxb, ok_bind]
                            rw [if_neg (by omega), if_neg (by omega), if_neg (by omega),
                              if_neg (by omega)]
                          have herr1 : read_multisig_keys (s ++ t) offf (d + 1) =
                              Except.error (Err.dataError "Invalid OP_PUSH") := by
                            rw [read_multisig_keys_succ]
                            rw [hpush_err, error_bind]
                          have hmono := read_multisig_keys_mono t _ _ _ _ hloop (by omega)
                          have hcomp := read_multisig_keys_comp _ _ _ _ _ _ hmono herr1
                          rw [hd, hcomp, error_bind]
                          rfl

theorem ims_consumption {s : List Nat} {r : List Nat × List (List Nat × Nat)}
    (hr : read_input_script_multisig s = Except.ok r) :
    ∃ sigs n off, read_ims_loop s (s.length + 1) 1 [] = Except.ok (sigs, n, off)
      ∧ off + n = s.length ∧ r = (slice s off (off + n), sigs) := by
  unfold read_input_script_multisig at hr
  cases hb : idx s 0 with
  | error e => rw [hb, error_bind] at hr; cases hr
  | ok b =>
    rw [hb, ok_bind] at hr
    by_cases hbz : b ≠ 0
    · rw [if_pos hbz] at hr; cases hr
    · rw [if_neg hbz] at hr
      cases hl : read_ims_loop s (s.length + 1) 1 [] with
      | error e => rw [hl, error_bind] at hr; cases hr
      | ok pl =>
        obtain ⟨sigs, n, off⟩ := pl
        rw [hl, ok_bind] at hr
        dsimp only at hr
        by_cases hne : off + n ≠ s.length
        · rw [if_pos hne] at hr; cases hr
        · push_neg at hne
          rw [if_neg (by omega)] at hr
          refine ⟨sigs, n, off, rfl, hne, ?_⟩
          exact ((Except.ok.injEq _ _).mp hr).symm

/-! ## Claim C4 -/

/-- Claim C4 counterexample: appending the trailing byte 0x4C to a scriptSig
that `read_input_script_multisig` parses successfully makes the parser fail
with a Python `IndexError` (reading the absent length operand of the 0x4C
push opcode), not with a `DataError`. -/
theorem C4_trailing_counterexample :
    read_input_script_multisig [0x00, 0x01, 0xAB] = Except.ok ([0xAB], [])
    ∧ read_input_script_multisig ([0x00, 0x01, 0xAB] ++ [0x4C]) =
      Except.error Err.indexError
    ∧ isDataErr (Except.error Err.indexError :
        Except Err (List Nat × List (List Nat × Nat))) = false :=
  ⟨by decide, by decide, by decide⟩

/-- Claim C4 (amended): `read_input_script_p2pkh`, `read_witness_p2wpkh`,
`read_witness_p2wsh` and `read_output_script_multisig` raise a `DataError`
on every input formed by appending nonempty trailing bytes to an input they
parse successfully; `read_input_script_multisig` also checks that its final
push ends exactly at the buffer end (success implies the consumed-length
equation), but on an input with trailing bytes it can fail with an
`IndexError` instead of a `DataError`. -/
theorem C4_parsers_full_consumption :
    (∀ (s : List Nat) (r : List (List Nat) × List (List Nat × Nat)) (t : List Nat),
      read_input_script_p2pkh s = Except.ok r → t ≠ [] →
      read_input_script_p2pkh (s ++ t) =
        Except.error (Err.dataError "Invalid scriptSig."))
    ∧ (∀ (s : List Nat) (r : List (List Nat) × List (List Nat × Nat)) (t : List Nat),
        read_witness_p2wpkh s = Except.ok r → t ≠ [] →
        read_witness_p2wpkh (s ++ t) =
          Except.error (Err.dataError "Invalid witness."))
    ∧ (∀ (s : List Nat) (r : List Nat × List (List Nat × Nat)) (t : List Nat),
        read_witness_p2wsh s = Except.ok r → t ≠ [] →
        read_witness_p2wsh (s ++ t) =
          Except.error (Err.dataError "Invalid witness."))
    ∧ (∀ (s : List Nat) (r : List (List Nat) × Nat) (t : List Nat),
        read_output_script_multisig s = Except.ok r → t ≠ [] →
        isDataErr (read_output_script_multisig (s ++ t)) = true)
    ∧ (∀ (s : List Nat) (r : List Nat × List (List Nat × Nat)),
        read_input_script_multisig s = Except.ok r →
        ∃ sigs n off, read_ims_loop s (s.length + 1) 1 [] = Except.ok (sigs, n, off)
          ∧ off + n = s.length ∧ r = (slice s off (off + n), sigs)) :=
  ⟨fun _ _ t h ht => p2pkh_ext t h ht,
   fun _ _ t h ht => p2wpkh_ext t h ht,
   fun _ _ t h ht => p2wsh_ext t h ht,
   fun _ _ t h ht => out_multisig_ext t h ht,
   fun _ _ h => ims_consumption h⟩

/-- Witness for the amended C4 at concrete inputs. -/
theorem C4_parsers_full_consumption_witness :
    read_input_script_p2pkh ([1, 9, 1, 7] ++ [0]) =
      Except.error (Err.dataError "Invalid scriptSig.")
    ∧ read_witness_p2wpkh ([2, 1, 9, 1, 7] ++ [0]) =
      Except.error (Err.dataError "Invalid witness.")
    ∧ read_witness_p2wsh ([2, 0, 1, 5] ++ [0]) =
      Except.error (Err.dataError "Invalid witness.")
    ∧ isDataErr (read_output_script_multisig
        (([0x51, 0x21] ++ List.replicate 33 5 ++ [0x51, 0xAE]) ++ [0])) = true
    ∧ ∃ sigs n off,
        read_ims_loop [0x00, 0x01, 0xAB] ([0x00, 0x01, 0xAB].length + 1) 1 [] =
          Except.ok (sigs, n, off)
        ∧ off + n = [0x00, 0x01, 0xAB].length
        ∧ (([0xAB], []) : List Nat × List (List Nat × Nat)) =
          (slice [0x00, 0x01, 0xAB] off (off + n), sigs) :=
  ⟨C4_parsers_full_consumption.1 [1, 9, 1, 7] ([[7]], [([], 9)]) [0] (by decide)
      (by decide),
   C4_parsers_full_consumption.2.1 [2, 1, 9, 1, 7] ([[7]], [([], 9)]) [0] (by decide)
      (by decide),
   C4_parsers_full_consumption.2.2.1 [2, 0, 1, 5] ([5], []) [0] (by decide) (by decide),
   C4_parsers_full_consumption.2.2.2.1 ([0x51, 0x21] ++ List.replicate 33 5
      ++ [0x51, 0xAE]) ([List.replicate 33 5], 1) [0] (by decide) (by decide),
   C4_parsers_full_consumption.2.2.2.2 [0x00, 0x01, 0xAB] ([0xAB], []) (by decide)⟩


end TrezorScripts
